import Mathlib

/-!
Shallow embedding of the SDFGenFast repository pieces relevant to its
specification: the unified kernel entry (`sdfgen::make_level_set3` in
`src/common/sdfgen_unified.cpp`), the Python-binding validation layer
(`generate_sdf` in `src/python/sdfgen_py.cpp`), the binary SDF container
writer and reader (`src/common/sdf_io.cpp`), the STL format detector and
loaders (`src/common/mesh_io_stl.cpp`), the OBJ loader
(`src/common/mesh_io_obj.cpp`), and the CLI argument dispatch
(`src/app/main.cpp`).

Files are modelled as lists of bytes (natural numbers below 256).
IEEE-754 binary32 values are modelled by their 32-bit patterns (natural
numbers below 2^32); the few float computations the modelled code performs
(the bounds maximum in the SDF writer, bounding boxes in the mesh loaders,
grid-spacing arithmetic in the CLI) are given by an executable binary32
model (`f32add`, `f32mul`, ...) built on exact rationals with
round-to-nearest-even.
-/

namespace SDFGenFast

/-! ## Little-endian 32-bit serialization -/

/-- Little-endian encoding of a 32-bit value as four bytes, as produced by
`ofstream::write` of an `int32` or `float` on a little-endian machine. -/
def le32 (v : Nat) : List Nat :=
  [v % 256, v / 256 % 256, v / 65536 % 256, v / 16777216 % 256]

/-- Little-endian decoding of the first four bytes of a byte list (missing
bytes read as zero), as performed by `ifstream::read` into an `int32` or
`float`. -/
def decHead (l : List Nat) : Nat :=
  l.getD 0 0 + 256 * l.getD 1 0 + 65536 * l.getD 2 0 + 16777216 * l.getD 3 0

/-- Decoding the four bytes at offset `p` of a file. -/
def dec4 (f : List Nat) (p : Nat) : Nat :=
  decHead (f.drop p)

/-- Two's-complement reading of a 32-bit pattern as a signed `int32`. -/
def i32 (w : Nat) : Int :=
  if w < 2 ^ 31 then (w : Int) else (w : Int) - 2 ^ 32

/-! ## Executable IEEE-754 binary32 model

Bit patterns are natural numbers below `2^32`.  `f32class` decodes a
pattern into NaN / infinity / a finite rational value; `roundF32` rounds a
nonzero rational to the nearest representable binary32 pattern
(round-to-nearest, ties to even), and the arithmetic operations combine
the two with the IEEE special-case rules. -/

/-- Class of a binary32 pattern: NaN, a signed infinity, or a finite
rational value (the sign of a zero is recovered from the pattern where it
matters). -/
inductive F32Class where
  | nan : F32Class
  | inf : Bool → F32Class
  | fin : ℚ → F32Class
deriving DecidableEq

/-- Sign bit of a pattern. -/
def f32sign (w : Nat) : Bool := w / 2 ^ 31 % 2 = 1

/-- Exponent field of a pattern. -/
def f32expf (w : Nat) : Nat := w / 2 ^ 23 % 2 ^ 8

/-- Fraction field of a pattern. -/
def f32frac (w : Nat) : Nat := w % 2 ^ 23

/-- Power of two as a rational, for an integer exponent. -/
def qpow2 (z : Int) : ℚ :=
  if 0 ≤ z then (2 : ℚ) ^ z.toNat else ((2 : ℚ) ^ (-z).toNat)⁻¹

/-- Decode a pattern into its class. -/
def f32class (w : Nat) : F32Class :=
  let e := f32expf w
  let f := f32frac w
  if e = 255 then (if f = 0 then .inf (f32sign w) else .nan)
  else
    let mag : ℚ := if e = 0 then (f : ℚ) * qpow2 (-149) else ((2 ^ 23 + f : Nat) : ℚ) * qpow2 ((e : Int) - 150)
    .fin (if f32sign w then -mag else mag)

/-- Assemble a pattern from sign, exponent field and fraction field. -/
def mkF32 (s : Bool) (e f : Nat) : Nat :=
  (cond s (2 ^ 31) 0) + e % 2 ^ 8 * 2 ^ 23 + f % 2 ^ 23

/-- The quiet-NaN pattern produced for invalid operations. -/
def f32qnan : Nat := mkF32 false 255 (2 ^ 22)

/-- Round a nonnegative rational to the nearest integer, ties to even. -/
def rne (q : ℚ) : Nat :=
  let n := q.floor.toNat
  let r := q - (n : ℚ)
  if r < 1 / 2 then n else if 1 / 2 < r then n + 1 else if n % 2 = 0 then n else n + 1

/-- Number of halvings needed to bring a rational below 2 (fueled). -/
def binUp (m : ℚ) : Nat → Nat
  | 0 => 0
  | fuel + 1 => if m < 2 then 0 else 1 + binUp (m / 2) fuel

/-- Number of doublings needed to bring a positive rational to 1 or above
(fueled). -/
def binDown (m : ℚ) : Nat → Nat
  | 0 => 0
  | fuel + 1 => if 1 ≤ m then 0 else 1 + binDown (m * 2) fuel

/-- Binade of a positive rational: the integer `e` with `2^e ≤ m < 2^(e+1)`
(within the fueled range, which covers every magnitude the modelled code
meets). -/
def binade (m : ℚ) : Int :=
  if 1 ≤ m then (binUp m 5000 : Int) else -(binDown m 5000 : Int)

/-- Round a rational to a binary32 pattern (round to nearest, ties to
even; overflow to infinity, underflow through the subnormal range to a
signed zero). -/
def roundF32 (q : ℚ) : Nat :=
  if q = 0 then 0
  else
    let s : Bool := q < 0
    let m := |q|
    let e := binade m
    if e < -126 then
      let n := rne (m * 2 ^ 149)
      if n = 0 then mkF32 s 0 0
      else if n < 2 ^ 23 then mkF32 s 0 n
      else mkF32 s 1 0
    else
      let n := rne (m / qpow2 (e - 23))
      if n < 2 ^ 24 then
        if e > 127 then mkF32 s 255 0 else mkF32 s (e + 127).toNat (n - 2 ^ 23)
      else
        if e + 1 > 127 then mkF32 s 255 0 else mkF32 s (e + 128).toNat 0

/-- Negate a pattern (flip the sign bit). -/
def f32neg (w : Nat) : Nat :=
  if w < 2 ^ 31 then w + 2 ^ 31 else w - 2 ^ 31

/-- Float addition on patterns. -/
def f32add (a b : Nat) : Nat :=
  match f32class a, f32class b with
  | .nan, _ => f32qnan
  | _, .nan => f32qnan
  | .inf sa, .inf sb => if sa = sb then mkF32 sa 255 0 else f32qnan
  | .inf sa, .fin _ => mkF32 sa 255 0
  | .fin _, .inf sb => mkF32 sb 255 0
  | .fin qa, .fin qb =>
    let q := qa + qb
    if q = 0 then (if f32sign a ∧ f32sign b then mkF32 true 0 0 else 0) else roundF32 q

/-- Float subtraction on patterns. -/
def f32sub (a b : Nat) : Nat := f32add a (f32neg b)

/-- Float multiplication on patterns. -/
def f32mul (a b : Nat) : Nat :=
  match f32class a, f32class b with
  | .nan, _ => f32qnan
  | _, .nan => f32qnan
  | .inf _, .fin qb => if qb = 0 then f32qnan else mkF32 (xor (f32sign a) (f32sign b)) 255 0
  | .fin qa, .inf _ => if qa = 0 then f32qnan else mkF32 (xor (f32sign a) (f32sign b)) 255 0
  | .inf _, .inf _ => mkF32 (xor (f32sign a) (f32sign b)) 255 0
  | .fin qa, .fin qb =>
    let q := qa * qb
    if q = 0 then mkF32 (xor (f32sign a) (f32sign b)) 0 0 else roundF32 q

/-- Float division on patterns. -/
def f32div (a b : Nat) : Nat :=
  match f32class a, f32class b with
  | .nan, _ => f32qnan
  | _, .nan => f32qnan
  | .inf _, .inf _ => f32qnan
  | .inf _, .fin _ => mkF32 (xor (f32sign a) (f32sign b)) 255 0
  | .fin _, .inf _ => mkF32 (xor (f32sign a) (f32sign b)) 0 0
  | .fin qa, .fin qb =>
    if qb = 0 then (if qa = 0 then f32qnan else mkF32 (xor (f32sign a) (f32sign b)) 255 0)
    else
      let q := qa / qb
      if q = 0 then mkF32 (xor (f32sign a) (f32sign b)) 0 0 else roundF32 q

/-- Conversion of an integer to a binary32 pattern. -/
def f32ofInt (n : Int) : Nat :=
  if n = 0 then 0 else roundF32 (n : ℚ)

/-- Strict float comparison on patterns (false whenever either side is
NaN). -/
def f32lt (a b : Nat) : Bool :=
  match f32class a, f32class b with
  | .nan, _ => false
  | _, .nan => false
  | .inf sa, .inf sb => sa ∧ ¬sb
  | .inf sa, .fin _ => sa
  | .fin _, .inf sb => ¬sb
  | .fin qa, .fin qb => qa < qb

/-- Non-strict float comparison on patterns (false whenever either side is
NaN). -/
def f32le (a b : Nat) : Bool :=
  match f32class a, f32class b with
  | .nan, _ => false
  | _, .nan => false
  | .inf sa, .inf sb => sa ∨ sa = sb
  | .inf sa, .fin _ => sa
  | .fin _, .inf sb => ¬sb
  | .fin qa, .fin qb => qa ≤ qb

/-- Truncation of a rational toward zero. -/
def ratTrunc (q : ℚ) : Int :=
  if 0 ≤ q then q.floor else -((-q).floor)

/-- Cast of a float pattern to a C `int` (truncation toward zero; the cast
is undefined behaviour on NaN and infinities, modelled as zero). -/
def f32toInt (w : Nat) : Int :=
  match f32class w with
  | .fin q => ratTrunc q
  | _ => 0

/-- Pattern of `FLT_MAX` (`std::numeric_limits<float>::max()`). -/
def fltMaxPat : Nat := 2139095039

/-- Pattern of `-FLT_MAX` (`std::numeric_limits<float>::lowest()`). -/
def fltLowestPat : Nat := 4286578687

/-- Pattern of the float literal `0.5f`. -/
def halfPat : Nat := 1056964608

/-! ## Dense 3D grid (`Array3<float>` from `src/common/array3.h`)

Cells hold binary32 bit patterns.  Element access maps `(i,j,k)` to the
linear index `i + ni*(j + nj*k)` (`array3.h`, `operator()`). -/

/-- Dense 3D float grid: dimensions and row-major backing storage of
binary32 patterns. -/
structure Array3f where
  ni : Nat
  nj : Nat
  nk : Nat
  a : List Nat
deriving DecidableEq

/-- Linear storage index of cell `(i,j,k)`: `i + ni*(j + nj*k)`. -/
def storIdx (ni nj i j k : Nat) : Nat := i + ni * (j + nj * k)

/-- Element access `phi(i,j,k)` (missing storage reads as pattern 0). -/
def Array3f.at (g : Array3f) (i j k : Nat) : Nat :=
  g.a.getD (storIdx g.ni g.nj i j k) 0

/-! ## Binary SDF container (`src/common/sdf_io.cpp`)

The writer emits a 36-byte header (three `int32` dimensions, three
`float32` bounds minima, three `float32` bounds maxima) followed by the
cell values in the loop order `for i: for j: for k`.  The reader parses
the header, validates the dimensions, resizes the grid and assigns the
cells back in the same loop order. -/

/-- The `for i: for j: for k` traversal order of the grid used by both
`write_sdf_binary` and `read_sdf_binary`. -/
def loopTriples (ni nj nk : Nat) : List (Nat × Nat × Nat) :=
  (List.range ni).flatMap fun i =>
    (List.range nj).flatMap fun j =>
      (List.range nk).map fun k => (i, j, k)

/-- Bounds maximum component written by `write_sdf_binary`:
`min_box[c] + phi_grid.n * dx` computed in binary32 (the `int` dimension
is converted to `float`, multiplied by `dx`, and added to `min_box[c]`). -/
def boundsMaxComp (minc : Nat) (n : Nat) (dx : Nat) : Nat :=
  f32add minc (f32mul (f32ofInt (n : Int)) dx)

/-- Negative test `val < 0.0f` used for the inside-cell statistic. -/
def f32isNeg (w : Nat) : Bool := f32lt w 0

/-- The nine header words written by `write_sdf_binary`, in order: the
three `int32` dimensions, the three `float32` bounds minima, and the three
`float32` bounds maxima computed as `min + n * dx`. -/
def sdfHeaderWords (g : Array3f) (mn0 mn1 mn2 dx : Nat) : List Nat :=
  [g.ni, g.nj, g.nk, mn0, mn1, mn2,
   boundsMaxComp mn0 g.ni dx, boundsMaxComp mn1 g.nj dx, boundsMaxComp mn2 g.nk dx]

/-- The cell values emitted by the writer data loop, in the traversal
order `for i: for j: for k`. -/
def sdfCellWords (g : Array3f) : List Nat :=
  (loopTriples g.ni g.nj g.nk).map fun t => g.at t.1 t.2.1 t.2.2

/-- Full byte stream produced by `write_sdf_binary` for grid `g`, bounds
minimum patterns `(mn0, mn1, mn2)` and cell size pattern `dx`: the nine
header words followed by the cell values, each as four little-endian
bytes. -/
def write_sdf_binary (g : Array3f) (mn0 mn1 mn2 dx : Nat) : List Nat :=
  (sdfHeaderWords g mn0 mn1 mn2 dx ++ sdfCellWords g).flatMap le32

/-- Inside-cell count reported through `out_inside_count`: the number of
visited cells whose value is negative. -/
def sdfInsideCount (g : Array3f) : Nat :=
  ((sdfCellWords g).filter f32isNeg).length

/-- Sequence of cell assignments performed by the reader loop: the `t`-th
visited cell `(i,j,k)` receives the `t`-th word of the data section, whose
four bytes sit at offsets `36 + 4t .. 36 + 4t + 3` of the file. -/
def readWrites (f : List Nat) (ni nj nk : Nat) : List (Nat × Nat) :=
  (loopTriples ni nj nk).enum.map fun p =>
    (storIdx ni nj p.2.1 p.2.2.1 p.2.2.2, decHead (f.drop (36 + 4 * p.1)))

/-- Apply a sequence of `(index, value)` stores to a backing list, in
order. -/
def applyWrites (a : List Nat) (ws : List (Nat × Nat)) : List Nat :=
  ws.foldl (fun a p => a.set p.1 p.2) a

/-- Reader `read_sdf_binary`: parse and validate the header, then rebuild
the grid from the data section.  The failure cases (file shorter than the
header, non-positive dimensions, truncated data) all return `none`,
mirroring the `return false` paths of the source. -/
def read_sdf_binary (f : List Nat) :
    Option (Array3f × (Nat × Nat × Nat) × (Nat × Nat × Nat)) :=
  if f.length < 36 then none
  else if i32 (dec4 f 0) ≤ 0 ∨ i32 (dec4 f 4) ≤ 0 ∨ i32 (dec4 f 8) ≤ 0 then none
  else if f.length <
      36 + 4 * ((i32 (dec4 f 0)).toNat * (i32 (dec4 f 4)).toNat * (i32 (dec4 f 8)).toNat) then none
  else
    some (⟨(i32 (dec4 f 0)).toNat, (i32 (dec4 f 4)).toNat, (i32 (dec4 f 8)).toNat,
        applyWrites
          (List.replicate ((i32 (dec4 f 0)).toNat * (i32 (dec4 f 4)).toNat * (i32 (dec4 f 8)).toNat) 0)
          (readWrites f (i32 (dec4 f 0)).toNat (i32 (dec4 f 4)).toNat (i32 (dec4 f 8)).toNat)⟩,
      (dec4 f 12, dec4 f 16, dec4 f 20), (dec4 f 24, dec4 f 28, dec4 f 32))

/-- Concrete SDF container file used as the C5 witness: a 1x1x2 grid with
cell values 7 and 9 and zero bounds. -/
def c5file : List Nat :=
  [1, 0, 0, 0, 1, 0, 0, 0, 2, 0, 0, 0,
   0, 0, 0, 0, 0, 0, 0, 0, 0, 0, 0, 0, 0, 0, 0, 0, 0, 0, 0, 0, 0, 0, 0, 0,
   7, 0, 0, 0, 9, 0, 0, 0]

/-- Concrete grid used as the C2 witness. -/
def c2grid : Array3f := ⟨1, 1, 1, [5]⟩

/-! ## Unified kernel entry (`src/common/sdfgen_unified.cpp`)

The entry resolves `Auto` to GPU or CPU using `is_gpu_available`
(compile-time `HAVE_CUDA` and a runtime CUDA device check), then
dispatches.  The `GPU` case throws a runtime error ("GPU backend requested
but CUDA support is not available") when the build lacks `HAVE_CUDA`; an
unresolved `Auto` in the switch throws a logic error.  The entry performs
no other checks: the backend kernels are invoked directly on the given
arguments. -/

/-- Backend selector (`sdfgen::HardwareBackend`). -/
inductive HardwareBackend where
  | Auto : HardwareBackend
  | CPU : HardwareBackend
  | GPU : HardwareBackend
deriving DecidableEq

/-- Arguments of `make_level_set3`: triangle index list, vertex pattern
list, origin patterns, cell-size pattern, grid dimensions, exact band and
thread count. -/
structure MLSArgs where
  tri : List (Nat × Nat × Nat)
  x : List (Nat × Nat × Nat)
  origin : Nat × Nat × Nat
  dx : Nat
  nx : Int
  ny : Int
  nz : Int
  exact_band : Int
  num_threads : Int
deriving DecidableEq

/-- The kernel invocation performed by the entry: which backend
implementation runs, on which arguments (the GPU kernel does not receive
the thread count). -/
inductive KernelRun where
  | cpu : MLSArgs → KernelRun
  | gpu : MLSArgs → KernelRun
deriving DecidableEq

/-- Errors thrown by the entry: the runtime error for a GPU request
without CUDA support, and the (unreachable) logic error for an unresolved
`Auto`. -/
inductive EntryError where
  | backendUnavailable : EntryError
  | autoUnresolved : EntryError
deriving DecidableEq

/-- Runtime GPU availability (`sdfgen::is_gpu_available`): true iff the
build has `HAVE_CUDA` and `cudaGetDeviceCount` succeeds with a positive
count.  The two build/runtime facts are the `haveCuda` and `deviceOk`
parameters of the model. -/
def is_gpu_available (haveCuda deviceOk : Bool) : Bool :=
  haveCuda && deviceOk

/-- Resolution of the `Auto` backend performed at the top of the entry:
GPU if available, else CPU; explicit backends pass through. -/
def resolveBackend (haveCuda deviceOk : Bool) : HardwareBackend → HardwareBackend
  | .Auto => if is_gpu_available haveCuda deviceOk then .GPU else .CPU
  | b => b

/-- The unified kernel entry `sdfgen::make_level_set3`: resolve `Auto`,
then dispatch; no input validation is performed. -/
def make_level_set3 (haveCuda deviceOk : Bool) (backend : HardwareBackend) (a : MLSArgs) :
    Except EntryError KernelRun :=
  match resolveBackend haveCuda deviceOk backend with
  | .CPU => .ok (.cpu a)
  | .GPU => if haveCuda then .ok (.gpu a) else .error .backendUnavailable
  | .Auto => .error .autoUnresolved

/-! ## Python-binding validation (`generate_sdf` in `src/python/sdfgen_py.cpp`)

The binding validates the mesh and grid parameters (in this order: empty
mesh, non-positive dimensions, non-positive `dx`), parses the backend
string, and only then invokes the kernel entry. -/

/-- Errors raised by `generate_sdf`: the three `std::invalid_argument`
validations, the invalid-backend-string rejection, and any error
propagating out of the kernel entry. -/
inductive GenError where
  | emptyMeshArg : GenError
  | invalidDims : GenError
  | invalidDx : GenError
  | invalidBackendArg : GenError
  | kernel : EntryError → GenError
deriving DecidableEq

/-- Backend-string parse of `generate_sdf`: "cpu", "gpu", everything else
other than "auto" is rejected.  Strings are byte lists. -/
def parseBackendStr (s : List Nat) : Option HardwareBackend :=
  if s = [99, 112, 117] then some .CPU
  else if s = [103, 112, 117] then some .GPU
  else if s ≠ [97, 117, 116, 111] then none
  else some .Auto

/-- The Python binding `generate_sdf`: validation, backend parse, kernel
call.  `nVerts` and `nTris` are the shapes of the NumPy inputs; `dx` is
the cell-size pattern. -/
def generate_sdf (haveCuda deviceOk : Bool) (nVerts nTris : Nat)
    (tri : List (Nat × Nat × Nat)) (x : List (Nat × Nat × Nat))
    (origin : Nat × Nat × Nat) (dx : Nat) (nx ny nz : Int) (exact_band : Int)
    (backendStr : List Nat) (num_threads : Int) : Except GenError KernelRun :=
  if nVerts = 0 ∨ nTris = 0 then .error .emptyMeshArg
  else if nx ≤ 0 ∨ ny ≤ 0 ∨ nz ≤ 0 then .error .invalidDims
  else if f32le dx 0 then .error .invalidDx
  else
    match parseBackendStr backendStr with
    | none => .error .invalidBackendArg
    | some b =>
      match make_level_set3 haveCuda deviceOk b ⟨tri, x, origin, dx, nx, ny, nz, exact_band, num_threads⟩ with
      | .error e => .error (.kernel e)
      | .ok r => .ok r

/-! ## Claims C1, C3, C4 -/

/-- An invalid argument record: empty triangle and vertex lists, zero
dimensions, zero cell size. -/
def c1BadArgs : MLSArgs := ⟨[], [], (0, 0, 0), 0, 0, 0, 0, 1, 0⟩

/-! ## Character-stream parsing helpers

Models of the C standard-library routines used by the loaders and the
CLI: `std::tolower` on bytes, whitespace sets, `std::stoi` / `atoi`, and
`istream` extraction of a float (`num_get` grammar: optional sign, digits
with optional decimal point, optional exponent with mandatory digits;
hexadecimal literals are not modelled). -/

/-- C `tolower` on a byte (C locale). -/
def toLowerByte (b : Nat) : Nat := if 65 ≤ b ∧ b ≤ 90 then b + 32 else b

/-- C `isspace` set used by stream extraction and `strtol`. -/
def isStreamWS (b : Nat) : Bool := b = 32 ∨ b = 9 ∨ b = 10 ∨ b = 11 ∨ b = 12 ∨ b = 13

/-- ASCII decimal digit test. -/
def isDigitB (b : Nat) : Bool := 48 ≤ b ∧ b ≤ 57

/-- Value of a list of ASCII digits. -/
def digitsVal (l : List Nat) : Nat := l.foldl (fun acc d => acc * 10 + (d - 48)) 0

/-- Power of ten as a rational, for an integer exponent. -/
def qpow10 (z : Int) : ℚ :=
  if 0 ≤ z then (10 : ℚ) ^ z.toNat else ((10 : ℚ) ^ (-z).toNat)⁻¹

/-- The `std::stoi` model: skip whitespace, optional sign, decimal digits;
`none` when there is no digit (`invalid_argument`) or the value leaves the
`int` range (`out_of_range`) — both exceptions are uncaught in `load_obj`. -/

def intRangeCheck (v : Int) : Option Int :=
  if v < -(2 ^ 31) ∨ (2 ^ 31 - 1 : Int) < v then none else some v

/-- The sign/digits part of `std::stoi` feeding the `int` range check. -/
def stoiParse (tok : List Nat) : Option Int :=
  let l1 := tok.dropWhile isStreamWS
  let l2 := if l1.headD 0 = 45 ∨ l1.headD 0 = 43 then l1.tail else l1
  let ds := l2.takeWhile isDigitB
  if ds.isEmpty then none
  else intRangeCheck ((if l1.headD 0 = 45 then -1 else 1) * (digitsVal ds : Int))

/-- The `atoi` model (also the C++11 `istream >> int` model, which stores
0 on failure): skip whitespace, optional sign, decimal digits, 0 when
there is no digit.  Out-of-range behaviour is not modelled. -/
def atoiB (tok : List Nat) : Int :=
  let l1 := tok.dropWhile isStreamWS
  let neg := l1.headD 0 = 45
  let l2 := if l1.headD 0 = 45 ∨ l1.headD 0 = 43 then l1.tail else l1
  (if neg then -1 else 1) * (digitsVal (l2.takeWhile isDigitB) : Int)

/-- Float extraction from a character stream: skip whitespace, then the
`num_get` decimal grammar.  Returns the exact parsed rational and the rest
of the stream, or `none` when extraction fails. -/
def parseFloat (l : List Nat) : Option (ℚ × List Nat) :=
  let l1 := l.dropWhile isStreamWS
  let neg := l1.headD 0 = 45
  let l2 := if l1.headD 0 = 45 ∨ l1.headD 0 = 43 then l1.tail else l1
  let d1 := l2.takeWhile isDigitB
  let r1 := l2.dropWhile isDigitB
  let d2 := if r1.headD 0 = 46 then r1.tail.takeWhile isDigitB else []
  let r2 := if r1.headD 0 = 46 then r1.tail.dropWhile isDigitB else r1
  if d1.isEmpty ∧ d2.isEmpty then none
  else
    let mant : ℚ := ((digitsVal d1 : ℚ) + (digitsVal d2 : ℚ) / 10 ^ d2.length) *
      (if neg then -1 else 1)
    if r2.headD 0 = 101 ∨ r2.headD 0 = 69 then
      let r3 := r2.tail
      let eneg := r3.headD 0 = 45
      let r4 := if r3.headD 0 = 45 ∨ r3.headD 0 = 43 then r3.tail else r3
      let ed := r4.takeWhile isDigitB
      if ed.isEmpty then none
      else some (mant * qpow10 ((if eneg then -1 else 1) * (digitsVal ed : Int)),
        r4.dropWhile isDigitB)
    else some (mant, r2)

/-- Extraction of a whitespace-delimited token (`istream >> std::string`). -/
def takeToken (l : List Nat) : List Nat × List Nat :=
  let l1 := l.dropWhile isStreamWS
  (l1.takeWhile (fun b => !isStreamWS b), l1.dropWhile (fun b => !isStreamWS b))

/-- Whitespace tokenization of a full stream (repeated `>> std::string`). -/
def tokensOf (l : List Nat) : List (List Nat) :=
  (l.splitOnP isStreamWS).filter (fun t => !t.isEmpty)

/-- Extraction of three floats, each stored as its rounded binary32
pattern (stream float extraction converts with correct rounding). -/
def parse3Floats (r : List Nat) : Option (Nat × Nat × Nat) :=
  match parseFloat r with
  | none => none
  | some (q0, r0) =>
    match parseFloat r0 with
    | none => none
    | some (q1, r1) =>
      match parseFloat r1 with
      | none => none
      | some (q2, _) => some (roundF32 q0, roundF32 q1, roundF32 q2)

/-- Sequential traversal of a list with a fallible function, failing at
the first failure (the `Option` effect of an early `return false` /
thrown exception inside a loop). -/
def mapOption {alpha beta : Type} (f : alpha → Option beta) : List alpha → Option (List beta)
  | [] => some []
  | a :: tl =>
    match f a, mapOption f tl with
    | some y, some ys => some (y :: ys)
    | _, _ => none

/-! ## Mesh data and bounding boxes (`update_minmax` from `util.h`/`vec.h`) -/

/-- Result of a successful mesh load: vertices, triangles, bounding box
(all values are binary32 patterns / vertex indices). -/
structure MeshData where
  verts : List (Nat × Nat × Nat)
  faces : List (Nat × Nat × Nat)
  minB : Nat × Nat × Nat
  maxB : Nat × Nat × Nat
deriving DecidableEq

/-- Scalar `update_minmax`: `if(a1<amin) amin=a1; else if(a1>amax) amax=a1;`. -/
def updMM1 (x mn mx : Nat) : Nat × Nat :=
  if f32lt x mn then (x, mx) else if f32lt mx x then (mn, x) else (mn, mx)

/-- Componentwise `update_minmax` on a vertex. -/
def update_minmax (v mn mx : Nat × Nat × Nat) : (Nat × Nat × Nat) × (Nat × Nat × Nat) :=
  let p0 := updMM1 v.1 mn.1 mx.1
  let p1 := updMM1 v.2.1 mn.2.1 mx.2.1
  let p2 := updMM1 v.2.2 mn.2.2 mx.2.2
  ((p0.1, p1.1, p2.1), (p0.2, p1.2, p2.2))

/-- Initial bounding-box minimum `(FLT_MAX, FLT_MAX, FLT_MAX)`. -/
def fltMaxV : Nat × Nat × Nat := (fltMaxPat, fltMaxPat, fltMaxPat)

/-- Initial bounding-box maximum `(-FLT_MAX, -FLT_MAX, -FLT_MAX)`. -/
def fltLowV : Nat × Nat × Nat := (fltLowestPat, fltLowestPat, fltLowestPat)

/-! ## STL loading (`src/common/mesh_io_stl.cpp`) -/

/-- STL format detected from the file header. -/
inductive STLFormat where
  | Binary : STLFormat
  | ASCII : STLFormat
  | Unknown : STLFormat
deriving DecidableEq

/-- The keyword `solid` as bytes. -/
def solidBytes : List Nat := [115, 111, 108, 105, 100]

/-- Format auto-detection `detect_stl_format`: fewer than 5 readable bytes
is `Unknown`; a header starting (case-insensitively) with `solid` is
binary exactly when the file size equals `80 + 4 + 50*n` for the uint32
`n` at offset 80 (a file too short to hold that uint32 is ASCII, matching
the failed read of the triangle count); anything else is binary. -/
def detect_stl_format (f : List Nat) : STLFormat :=
  if f.length < 5 then .Unknown
  else if solidBytes.isPrefixOf ((f.take 80).map toLowerByte) then
    if f.length < 84 then .ASCII
    else if f.length = 84 + 50 * dec4 f 80 then .Binary else .ASCII
  else .Binary

/-- The triangle records read by `load_binary_stl`: for each of the `n`
declared triangles, skip the 12-byte normal, read nine floats (three
vertices), skip the 2 attribute bytes; fail at the first truncated read. -/
def binTriangles (f : List Nat) (n : Nat) :
    Option (List ((Nat × Nat × Nat) × (Nat × Nat × Nat) × (Nat × Nat × Nat))) :=
  mapOption (fun i =>
    if f.length < 84 + 50 * i + 48 then none
    else some ((dec4 f (84 + 50 * i + 12), dec4 f (84 + 50 * i + 16), dec4 f (84 + 50 * i + 20)),
      (dec4 f (84 + 50 * i + 24), dec4 f (84 + 50 * i + 28), dec4 f (84 + 50 * i + 32)),
      (dec4 f (84 + 50 * i + 36), dec4 f (84 + 50 * i + 40), dec4 f (84 + 50 * i + 44))))
    (List.range n)

/-- Binary STL loader: read the triangle count at offset 80, then the
triangles; every triangle contributes three fresh vertices and the face
`(3i, 3i+1, 3i+2)`; the bounding box accumulates over the vertices in
order.  No emptiness check is performed. -/
def load_binary_stl (f : List Nat) : Option MeshData :=
  if f.length < 84 then none
  else
    match binTriangles f (dec4 f 80) with
    | none => none
    | some tris =>
      let verts := tris.flatMap fun t => [t.1, t.2.1, t.2.2]
      let faces := (List.range (dec4 f 80)).map fun i => (3 * i, 3 * i + 1, 3 * i + 2)
      let mm := verts.foldl (fun p v => update_minmax v p.1 p.2) (fltMaxV, fltLowV)
      some ⟨verts, faces, mm.1, mm.2⟩

/-- State of the ASCII STL line machine. -/
structure AsciiState where
  in_solid : Bool
  in_facet : Bool
  in_loop : Bool
  vertexInFacet : Nat
  facetStart : Nat
  count : Nat
  verts : List (Nat × Nat × Nat)
  faces : List (Nat × Nat × Nat)
  minB : Nat × Nat × Nat
  maxB : Nat × Nat × Nat
deriving DecidableEq

/-- Initial ASCII machine state. -/
def asciiInit : AsciiState := ⟨false, false, false, 0, 0, 0, [], [], fltMaxV, fltLowV⟩

/-- Leading-whitespace set trimmed from each ASCII STL line. -/
def isTrimWS (b : Nat) : Bool := b = 32 ∨ b = 9 ∨ b = 13 ∨ b = 10

/-- The keyword `endsolid` as bytes. -/
def endsolidBytes : List Nat := [101, 110, 100, 115, 111, 108, 105, 100]

/-- The keyword `facet` as bytes. -/
def facetBytes : List Nat := [102, 97, 99, 101, 116]

/-- The keyword `endfacet` as bytes. -/
def endfacetBytes : List Nat := [101, 110, 100, 102, 97, 99, 101, 116]

/-- The keyword pair `outer loop` as bytes. -/
def outerLoopBytes : List Nat := [111, 117, 116, 101, 114, 32, 108, 111, 111, 112]

/-- The keyword `endloop` as bytes. -/
def endloopBytes : List Nat := [101, 110, 100, 108, 111, 111, 112]

/-- The keyword `vertex` as bytes. -/
def vertexBytes : List Nat := [118, 101, 114, 116, 101, 120]

/-- Vertex-line parse of the ASCII loader: `iss >> keyword >> v0 >> v1 >> v2`. -/
def parseVertexLine (t : List Nat) : Option (Nat × Nat × Nat) :=
  parse3Floats (takeToken t).2

/-- One line of the ASCII STL machine (`load_ascii_stl` loop body).
`none` models the mid-file `return false` paths: `facet` outside `solid`,
a facet without exactly three vertices, `vertex` outside facet/loop, and
an unparsable vertex. -/
def asciiStep (st : AsciiState) (line : List Nat) : Option AsciiState :=
  let t := line.dropWhile isTrimWS
  if t.isEmpty then some st
  else
    let lower := t.map toLowerByte
    if solidBytes.isPrefixOf lower then some { st with in_solid := true }
    else if endsolidBytes.isPrefixOf lower then some { st with in_solid := false }
    else if facetBytes.isPrefixOf lower then
      if !st.in_solid then none
      else some { st with in_facet := true, vertexInFacet := 0, facetStart := st.verts.length }
    else if endfacetBytes.isPrefixOf lower then
      if st.vertexInFacet ≠ 3 then none
      else some { st with
        in_facet := false
        count := st.count + 1
        faces := st.faces ++ [(st.facetStart, st.facetStart + 1, st.facetStart + 2)] }
    else if outerLoopBytes.isPrefixOf lower then some { st with in_loop := true }
    else if endloopBytes.isPrefixOf lower then some { st with in_loop := false }
    else if vertexBytes.isPrefixOf lower then
      if !st.in_facet || !st.in_loop then none
      else
        match parseVertexLine t with
        | none => none
        | some v =>
          let mm := update_minmax v st.minB st.maxB
          some { st with
            verts := st.verts ++ [v]
            minB := mm.1
            maxB := mm.2
            vertexInFacet := st.vertexInFacet + 1 }
    else some st

/-- Run of the ASCII machine over the file's lines. -/
def asciiRun (lines : List (List Nat)) : Option AsciiState :=
  lines.foldlM asciiStep asciiInit

/-- ASCII STL loader: run the machine, then reject empty results
(`No vertices found` / `No faces found`). -/
def load_ascii_stl (lines : List (List Nat)) : Option MeshData :=
  match asciiRun lines with
  | none => none
  | some st =>
    if st.verts.isEmpty then none
    else if st.faces.isEmpty then none
    else some ⟨st.verts, st.faces, st.minB, st.maxB⟩

/-- The lines produced by repeated `std::getline` on a byte stream. -/
def linesOfBytes (f : List Nat) : List (List Nat) :=
  if f.isEmpty then []
  else if f.getLast? = some 10 then (f.splitOn 10).dropLast else f.splitOn 10

/-- Public `load_stl`: detect the format and dispatch; unknown format is
an error. -/
def load_stl (f : List Nat) : Option MeshData :=
  match detect_stl_format f with
  | .Unknown => none
  | .Binary => load_binary_stl f
  | .ASCII => load_ascii_stl (linesOfBytes f)

/-! ## OBJ loading (`src/common/mesh_io_obj.cpp`) -/

/-- Cast of an `int` to `uint32_t` (two's-complement wraparound). -/
def u32cast (z : Int) : Nat := (z % 2 ^ 32).toNat

/-- Vertex index extracted from one face token: the leading integer before
the first `/`, parsed by `std::stoi`. -/
def objFaceIndex (tok : List Nat) : Option Int :=
  stoiParse (tok.takeWhile (fun b => !(b = 47)))

/-- Fan triangulation of a face from its first vertex: for each
`i ∈ [1, m-1)` the triangle `(v[0]-1, v[i]-1, v[i+1]-1)`, each index cast
to `uint32_t`. -/
def fanFaces (vs : List Int) : List (Nat × Nat × Nat) :=
  (List.range (vs.length - 2)).map fun t =>
    (u32cast (vs.getD 0 0 - 1), u32cast (vs.getD (t + 1) 0 - 1), u32cast (vs.getD (t + 2) 0 - 1))

/-- Triangles appended by one `f ` line given its vertex tokens: parse
each token (`none` models the uncaught `std::stoi` exception), skip faces
of fewer than three vertices with a warning, else fan-triangulate. -/
def objFaceTriangles (toks : List (List Nat)) : Option (List (Nat × Nat × Nat)) :=
  match mapOption objFaceIndex toks with
  | none => none
  | some vs => some (if vs.length < 3 then [] else fanFaces vs)

/-- Vertex-line parse of the OBJ loader: `data >> c >> p0 >> p1 >> p2`
(the single character `c` consumes the leading `v`). -/
def objParseVertex (line : List Nat) : Option (Nat × Nat × Nat) :=
  parse3Floats (line.drop 1)

/-- State of the OBJ line loop. -/
structure ObjState where
  verts : List (Nat × Nat × Nat)
  faces : List (Nat × Nat × Nat)
  minB : Nat × Nat × Nat
  maxB : Nat × Nat × Nat
  ignored : Nat
deriving DecidableEq

/-- Initial OBJ state. -/
def objInit : ObjState := ⟨[], [], fltMaxV, fltLowV, 0⟩

/-- One line of the OBJ loop.  `none` models the `std::stoi` exception
escaping `load_obj`; failed vertex parses warn and continue; `vn`, `vt`,
comments and unrecognized lines are counted as ignored.  Indexing past the
end of a line reads `\0` (the C++11 `std::string::operator[]` contract),
modelled by `getD _ 0`. -/
def objStep (st : ObjState) (line : List Nat) : Option ObjState :=
  if line.isEmpty then some st
  else if line.headD 0 = 118 then
    if 2 ≤ line.length ∧ line.getD 1 0 = 110 then some { st with ignored := st.ignored + 1 }
    else if 2 ≤ line.length ∧ line.getD 1 0 = 116 then some { st with ignored := st.ignored + 1 }
    else if line.getD 1 0 = 32 ∨ line.getD 1 0 = 9 then
      match objParseVertex line with
      | none => some st
      | some v =>
        let mm := update_minmax v st.minB st.maxB
        some { st with
          verts := st.verts ++ [v]
          minB := mm.1
          maxB := mm.2 }
    else some st
  else if line.headD 0 = 102 ∧ (line.getD 1 0 = 32 ∨ line.getD 1 0 = 9) then
    match objFaceTriangles (tokensOf (line.drop 1)) with
    | none => none
    | some fs => some { st with faces := st.faces ++ fs }
  else if line.headD 0 = 35 then some { st with ignored := st.ignored + 1 }
  else some { st with ignored := st.ignored + 1 }

/-- Run of the OBJ loop over the file's lines. -/
def objRun (lines : List (List Nat)) : Option ObjState :=
  lines.foldlM objStep objInit

/-- Observable outcome of `load_obj`: success with a mesh, `return false`,
or an exception escaping the function. -/
inductive LoadResult where
  | success : MeshData → LoadResult
  | failure : LoadResult
  | exception : LoadResult
deriving DecidableEq

/-- OBJ loader: run the line loop, then reject empty results
(`No vertices found` / `No faces found`). -/
def load_obj (lines : List (List Nat)) : LoadResult :=
  match objRun lines with
  | none => .exception
  | some st =>
    if st.verts.isEmpty then .failure
    else if st.faces.isEmpty then .failure
    else .success ⟨st.verts, st.faces, st.minB, st.maxB⟩

/-! ## Claim C10: emptiness checks of the loaders -/

/-- The 84-byte file that is a well-formed binary STL declaring zero
triangles. -/
def zeroTriStl : List Nat := List.replicate 84 0

/-! ## CLI argument dispatch (`src/app/main.cpp`)

The model covers `main` from argument inspection through the computation
of the run configuration (mode, grid dimensions, padding, thread count,
cell size); the mesh file's load result is a parameter.  The
grid-recentering performed after the parse and the output-file naming are
outside the modelled outcome. -/

/-- Loaded mesh bounding box (minimum and maximum corner patterns). -/
def MeshBB : Type := (Nat × Nat × Nat) × (Nat × Nat × Nat)

/-- CLI mode: legacy OBJ with dx spacing, proportional STL, manual STL. -/
inductive CliMode where
  | mode1 : CliMode
  | mode2a : CliMode
  | mode2b : CliMode
deriving DecidableEq

/-- Parsed run configuration of the CLI. -/
structure RunConfig where
  mode : CliMode
  nx : Int
  ny : Int
  nz : Int
  padding : Int
  threads : Int
  dx : Nat
deriving DecidableEq

/-- Observable outcome of the CLI argument handling: usage text and exit,
mesh load failure, argument-validation error, or a run configuration. -/
inductive CliOutcome where
  | usage : CliOutcome
  | loadError : CliOutcome
  | argError : CliOutcome
  | run : RunConfig → CliOutcome
deriving DecidableEq

/-- The extension `.stl` as bytes. -/
def stlExtBytes : List Nat := [46, 115, 116, 108]

/-- The extension `.obj` as bytes. -/
def objExtBytes : List Nat := [46, 111, 98, 106]

/-- Float argument parse of mode 1 (`stringstream >> dx` with `dx`
initialized to 0 and set to 0 on failure, per C++11). -/
def parseFloatArg (l : List Nat) : Nat :=
  match parseFloat l with
  | some p => roundF32 p.1
  | none => 0

/-- Larger of two floats, `std::max` (`(a < b) ? b : a`). -/
def f32max (a b : Nat) : Nat := if f32lt a b then b else a

/-- One grid dimension of mode 1: pad the bounds by `padding*dx` on each
side, divide the extent by `dx` and cast to `unsigned int`. -/
def mode1Dim (mnc mxc dxp : Nat) (pad : Int) : Nat :=
  u32cast (f32toInt (f32div
    (f32sub (f32add mxc (f32mul (f32ofInt pad) dxp)) (f32sub mnc (f32mul (f32ofInt pad) dxp)))
    dxp))

/-- Mode 1 (legacy OBJ): extension check, parse `dx`, `padding` (clamped
to at least 1) and optional `threads`, then load the mesh. -/
def cliMode1 (args : List (List Nat)) (mesh : Option MeshBB) : CliOutcome :=
  if (args.getD 1 []).length < 5 ∨ ¬(objExtBytes.isSuffixOf (args.getD 1 []) = true) then .argError
  else
    let dxp := parseFloatArg (args.getD 2 [])
    let pad := if atoiB (args.getD 3 []) < 1 then 1 else atoiB (args.getD 3 [])
    let thr := if 5 ≤ args.length then atoiB (args.getD 4 []) else 0
    match mesh with
    | none => .loadError
    | some mm =>
      .run ⟨.mode1,
        (mode1Dim mm.1.1 mm.2.1 dxp pad : Int),
        (mode1Dim mm.1.2.1 mm.2.2.1 dxp pad : Int),
        (mode1Dim mm.1.2.2 mm.2.2.2 dxp pad : Int),
        pad, thr, dxp⟩

/-- Mode 2a (proportional STL): `Nx`, optional padding (clamped to at
least 1) and threads; `dx` from the X extent, `Ny`/`Nz` proportional. -/
def cliMode2a (args : List (List Nat)) (mm : MeshBB) : CliOutcome :=
  if atoiB (args.getD 2 []) ≤ 0 then .argError
  else
    let nxv := atoiB (args.getD 2 [])
    let pad0 := if 4 ≤ args.length then atoiB (args.getD 3 []) else 1
    let pad := if pad0 < 1 then 1 else pad0
    let thr := if args.length = 5 then atoiB (args.getD 4 []) else 0
    let dx := f32div (f32sub mm.2.1 mm.1.1) (f32ofInt (nxv - 2 * pad))
    .run ⟨.mode2a, nxv,
      f32toInt (f32add (f32div (f32sub mm.2.2.1 mm.1.2.1) dx) halfPat) + 2 * pad,
      f32toInt (f32add (f32div (f32sub mm.2.2.2 mm.1.2.2) dx) halfPat) + 2 * pad,
      pad, thr, dx⟩

/-- Mode 2b (manual STL): `Nx Ny Nz`, optional padding (clamped to at
least 1) and threads; `dx` is the largest of the three per-axis fits. -/
def cliMode2b (args : List (List Nat)) (mm : MeshBB) : CliOutcome :=
  if atoiB (args.getD 2 []) ≤ 0 ∨ atoiB (args.getD 3 []) ≤ 0 ∨ atoiB (args.getD 4 []) ≤ 0 then
    .argError
  else
    let nxv := atoiB (args.getD 2 [])
    let nyv := atoiB (args.getD 3 [])
    let nzv := atoiB (args.getD 4 [])
    let pad0 := if 6 ≤ args.length then atoiB (args.getD 5 []) else 1
    let pad := if pad0 < 1 then 1 else pad0
    let thr := if args.length = 7 then atoiB (args.getD 6 []) else 0
    let dx := f32max (f32div (f32sub mm.2.1 mm.1.1) (f32ofInt (nxv - 2 * pad)))
      (f32max (f32div (f32sub mm.2.2.1 mm.1.2.1) (f32ofInt (nyv - 2 * pad)))
        (f32div (f32sub mm.2.2.2 mm.1.2.2) (f32ofInt (nzv - 2 * pad))))
    .run ⟨.mode2b, nxv, nyv, nzv, pad, thr, dx⟩

/-- Whether the first argument names an STL file (`.stl` extension and at
least four characters). -/
def cliIsStl (args : List (List Nat)) : Prop :=
  4 ≤ (args.getD 1 []).length ∧ stlExtBytes.isSuffixOf (args.getD 1 []) = true

instance (args : List (List Nat)) : Decidable (cliIsStl args) := by
  unfold cliIsStl
  infer_instance

/-- The argc=5 disambiguation of mode 2: proportional sizing when the
value in the `Ny` position parses below 20. -/
def cliIsMode2a (args : List (List Nat)) : Prop :=
  args.length = 3 ∨ args.length = 4 ∨ (args.length = 5 ∧ atoiB (args.getD 3 []) < 20)

instance (args : List (List Nat)) : Decidable (cliIsMode2a args) := by
  unfold cliIsMode2a
  infer_instance

/-- The CLI `main` from argument inspection to the run configuration.
`mesh` is the load result of the input file (mode 1 loads after parsing
its numeric arguments, mode 2 before; both orders observe the same
outcome here since mode 1 has no numeric validation). -/
def cliMain (args : List (List Nat)) (mesh : Option MeshBB) : CliOutcome :=
  if (¬(cliIsStl args ∧ 3 ≤ args.length) ∧ args.length < 4) ∨
      ((cliIsStl args ∧ 3 ≤ args.length) ∧ args.length < 3) then .usage
  else if cliIsStl args ∧ 3 ≤ args.length then
    match mesh with
    | none => .loadError
    | some mm => if cliIsMode2a args then cliMode2a args mm else cliMode2b args mm
  else cliMode1 args mesh

/-! ## Theorems -/

theorem le32_length (v : Nat) : (le32 v).length = 4 := rfl

theorem decHead_le32_append (v : Nat) (r : List Nat) :
    decHead (le32 v ++ r) = v % 2 ^ 32 := by
  simp only [le32, decHead, List.cons_append, List.nil_append, List.getD_cons_zero,
    List.getD_cons_succ]
  omega

theorem drop4_le32_append (v : Nat) (r : List Nat) : (le32 v ++ r).drop 4 = r := rfl

theorem mkF32_lt (s : Bool) (e f : Nat) : mkF32 s e f < 2 ^ 32 := by
  unfold mkF32
  rcases s with _ | _ <;> simp [cond] <;> omega

theorem f32qnan_lt : f32qnan < 2 ^ 32 := mkF32_lt _ _ _

theorem roundF32_lt (q : ℚ) : roundF32 q < 2 ^ 32 := by
  simp only [roundF32]
  split_ifs <;> first | omega | exact mkF32_lt _ _ _

theorem f32add_lt (a b : Nat) : f32add a b < 2 ^ 32 := by
  unfold f32add
  rcases f32class a with _ | sa | qa <;> rcases f32class b with _ | sb | qb <;>
    simp only [] <;> (try split_ifs) <;>
    first
      | exact f32qnan_lt
      | exact mkF32_lt _ _ _
      | exact roundF32_lt _
      | omega

theorem f32mul_lt (a b : Nat) : f32mul a b < 2 ^ 32 := by
  unfold f32mul
  rcases f32class a with _ | sa | qa <;> rcases f32class b with _ | sb | qb <;>
    simp only [] <;> (try split_ifs) <;>
    first
      | exact f32qnan_lt
      | exact mkF32_lt _ _ _
      | exact roundF32_lt _
      | omega

/-! ## Indexing lemmas for the traversal order -/

theorem flatMap_uniform_getElem {α β : Type} (f : α → List β) (m : Nat)
    (hm : ∀ a, (f a).length = m) (l : List α) (t r : Nat) (hr : r < m) (x : α)
    (hx : l[t]? = some x) :
    (l.flatMap f)[m * t + r]? = (f x)[r]? := by
  induction l generalizing t with
  | nil => simp at hx
  | cons a tl ih =>
    cases t with
    | zero =>
      have hax : a = x := by simpa using hx
      rw [List.flatMap_cons, Nat.mul_zero, Nat.zero_add, List.getElem?_append,
        if_pos (show r < (f a).length by rw [hm]; exact hr), hax]
    | succ t =>
      simp only [List.getElem?_cons_succ] at hx
      rw [List.flatMap_cons, List.getElem?_append, if_neg (by rw [hm a]; push_neg; calc
        m ≤ m * (t + 1) := Nat.le_mul_of_pos_right m (by omega)
        _ ≤ m * (t + 1) + r := by omega)]
      have harith : m * (t + 1) + r - (f a).length = m * t + r := by rw [hm a]; ring_nf; omega
      rw [harith]
      exact ih t hx

theorem inner_block_length (ni nj nk i : Nat) :
    (((List.range nj).flatMap fun j => (List.range nk).map fun k => (i, j, k)) :
      List (Nat × Nat × Nat)).length = nj * nk := by
  rw [List.length_flatMap]
  have : (List.map (List.length ∘ fun j => (List.range nk).map fun k => (i, j, k)) (List.range nj)) =
      List.replicate nj nk := by
    refine List.eq_replicate.mpr ⟨by simp, ?_⟩
    intro b hb
    rcases List.mem_map.mp hb with ⟨j, _, hj⟩
    simp only [Function.comp] at hj
    simp [← hj]
  rw [this, List.sum_replicate]
  simp

theorem loopTriples_length (ni nj nk : Nat) :
    (loopTriples ni nj nk).length = ni * nj * nk := by
  rw [loopTriples, List.length_flatMap]
  have : (List.map (List.length ∘ fun i => (List.range nj).flatMap fun j =>
      (List.range nk).map fun k => (i, j, k)) (List.range ni)) = List.replicate ni (nj * nk) := by
    refine List.eq_replicate.mpr ⟨by simp, ?_⟩
    intro b hb
    rcases List.mem_map.mp hb with ⟨i, _, hi⟩
    simp only [Function.comp] at hi
    rw [← hi]
    exact inner_block_length ni nj nk i
  rw [this, List.sum_replicate]
  simp [Nat.mul_assoc]

theorem loopTriples_getElem (ni nj nk i j k : Nat) (hi : i < ni) (hj : j < nj) (hk : k < nk) :
    (loopTriples ni nj nk)[k + nk * (j + nj * i)]? = some (i, j, k) := by
  have h1 : k + nk * (j + nj * i) = (nj * nk) * i + (nk * j + k) := by ring
  rw [loopTriples, h1]
  rw [flatMap_uniform_getElem _ (nj * nk) (fun a => inner_block_length ni nj nk a) _ i _
    (by have := Nat.succ_le_of_lt hk; calc nk * j + k < nk * j + nk := by omega
          _ = nk * (j + 1) := by ring
          _ ≤ nk * nj := Nat.mul_le_mul_left nk hj
          _ = nj * nk := Nat.mul_comm nk nj)
    i (List.getElem?_range hi)]
  rw [show nk * j + k = nk * j + k from rfl]
  rw [flatMap_uniform_getElem _ nk (fun a => by simp) _ j k hk j (List.getElem?_range hj)]
  rw [List.getElem?_map, List.getElem?_range hk]
  rfl

theorem mem_loopTriples {ni nj nk : Nat} {p : Nat × Nat × Nat}
    (hp : p ∈ loopTriples ni nj nk) : p.1 < ni ∧ p.2.1 < nj ∧ p.2.2 < nk := by
  simp only [loopTriples, List.mem_flatMap, List.mem_map, List.mem_range] at hp
  obtain ⟨i, hi, j, hj, k, hk, hpk⟩ := hp
  subst hpk
  exact ⟨hi, hj, hk⟩

theorem nodup_flatMap_tagged {α β : Type} (l : List α) (f : α → List β) (tag : β → α)
    (hl : l.Nodup) (hf : ∀ a ∈ l, (f a).Nodup)
    (htag : ∀ a ∈ l, ∀ b ∈ f a, tag b = a) : (l.flatMap f).Nodup := by
  induction l with
  | nil => simp
  | cons a tl ih =>
    rw [List.flatMap_cons]
    rcases List.nodup_cons.mp hl with ⟨hna, htl⟩
    refine List.Nodup.append (hf a (by simp)) (ih htl ?_ ?_) ?_
    · intro x hx; exact hf x (by simp [hx])
    · intro x hx b hb; exact htag x (by simp [hx]) b hb
    · intro b hb hb2
      rcases List.mem_flatMap.mp hb2 with ⟨a2, ha2, hba2⟩
      have e1 : tag b = a := htag a (by simp) b hb
      have e2 : tag b = a2 := htag a2 (by simp [ha2]) b hba2
      exact hna (by rw [← e1.symm.trans e2] at ha2; exact ha2)

theorem loopTriples_nodup (ni nj nk : Nat) : (loopTriples ni nj nk).Nodup := by
  refine nodup_flatMap_tagged _ _ (fun p => p.1) (List.nodup_range _) ?_ ?_
  · intro i _
    refine nodup_flatMap_tagged _ _ (fun p => p.2.1) (List.nodup_range _) ?_ ?_
    · intro j _
      refine List.Nodup.map ?_ (List.nodup_range _)
      intro k1 k2 he
      simpa using he
    · intro j _ b hb
      rcases List.mem_map.mp hb with ⟨k, _, hk⟩
      rw [← hk]
  · intro i _ b hb
    rcases List.mem_flatMap.mp hb with ⟨j, _, hbj⟩
    rcases List.mem_map.mp hbj with ⟨k, _, hk⟩
    rw [← hk]

theorem storIdx_lt {ni nj nk i j k : Nat} (hi : i < ni) (hj : j < nj) (hk : k < nk) :
    storIdx ni nj i j k < ni * nj * nk := by
  have h1 : j + nj * k < nj * nk := by
    calc j + nj * k < nj + nj * k := by omega
      _ = nj * (k + 1) := by ring
      _ ≤ nj * nk := Nat.mul_le_mul_left nj hk
  calc storIdx ni nj i j k = i + ni * (j + nj * k) := rfl
    _ < ni + ni * (j + nj * k) := by omega
    _ = ni * (j + nj * k + 1) := by ring
    _ ≤ ni * (nj * nk) := Nat.mul_le_mul_left ni (by omega)
    _ = ni * nj * nk := by ring

theorem storIdx_inj {ni nj : Nat} {i1 j1 k1 i2 j2 k2 : Nat}
    (hi1 : i1 < ni) (hj1 : j1 < nj) (hi2 : i2 < ni) (hj2 : j2 < nj)
    (h : storIdx ni nj i1 j1 k1 = storIdx ni nj i2 j2 k2) :
    i1 = i2 ∧ j1 = j2 ∧ k1 = k2 := by
  unfold storIdx at h
  have hni : 0 < ni := by omega
  have hnj : 0 < nj := by omega
  have hi : i1 = i2 := by
    have h1 := congrArg (fun x => x % ni) h
    simpa [Nat.add_mul_mod_self_left, Nat.mod_eq_of_lt hi1, Nat.mod_eq_of_lt hi2] using h1
  subst hi
  have h2 : j1 + nj * k1 = j2 + nj * k2 := Nat.eq_of_mul_eq_mul_left hni (by omega)
  have hj : j1 = j2 := by
    have h3 := congrArg (fun x => x % nj) h2
    simpa [Nat.add_mul_mod_self_left, Nat.mod_eq_of_lt hj1, Nat.mod_eq_of_lt hj2] using h3
  subst hj
  exact ⟨rfl, rfl, Nat.eq_of_mul_eq_mul_left hnj (by omega)⟩

theorem applyWrites_length (a : List Nat) (ws : List (Nat × Nat)) :
    (applyWrites a ws).length = a.length := by
  induction ws generalizing a with
  | nil => rfl
  | cons w tl ih => rw [applyWrites, List.foldl_cons, ← applyWrites, ih, List.length_set]

theorem applyWrites_getElem_not_mem (a : List Nat) (ws : List (Nat × Nat)) (s : Nat)
    (hs : s ∉ ws.map Prod.fst) : (applyWrites a ws)[s]? = a[s]? := by
  induction ws generalizing a with
  | nil => rfl
  | cons w tl ih =>
    simp only [List.map_cons, List.mem_cons] at hs
    push_neg at hs
    rw [applyWrites, List.foldl_cons, ← applyWrites, ih _ hs.2,
      List.getElem?_set_ne (fun he => hs.1 he.symm)]

theorem applyWrites_getElem_of_mem (a : List Nat) (ws : List (Nat × Nat)) (s v : Nat)
    (hnd : (ws.map Prod.fst).Nodup) (hmem : (s, v) ∈ ws) (hs : s < a.length) :
    (applyWrites a ws)[s]? = some v := by
  induction ws generalizing a with
  | nil => simp at hmem
  | cons w tl ih =>
    simp only [List.map_cons, List.nodup_cons] at hnd
    rw [applyWrites, List.foldl_cons, ← applyWrites]
    rcases List.mem_cons.mp hmem with he | hm
    · have hw : w = (s, v) := he.symm
      subst hw
      rw [applyWrites_getElem_not_mem _ _ _ hnd.1, List.getElem?_set_self hs]
    · exact ih (a.set w.1 w.2) hnd.2 hm (by rw [List.length_set]; exact hs)

theorem readWrites_keys (f : List Nat) (ni nj nk : Nat) :
    (readWrites f ni nj nk).map Prod.fst =
      (loopTriples ni nj nk).map fun p => storIdx ni nj p.1 p.2.1 p.2.2 := by
  rw [readWrites, List.map_map]
  have : ((fun p : Nat × Nat => p.1) ∘ fun p : Nat × (Nat × Nat × Nat) =>
      (storIdx ni nj p.2.1 p.2.2.1 p.2.2.2, decHead (f.drop (36 + 4 * p.1)))) =
      (fun p : Nat × Nat × Nat => storIdx ni nj p.1 p.2.1 p.2.2) ∘ Prod.snd := rfl
  rw [this, ← List.map_map, List.enum_map_snd]

theorem readWrites_keys_nodup (f : List Nat) (ni nj nk : Nat) :
    ((readWrites f ni nj nk).map Prod.fst).Nodup := by
  rw [readWrites_keys]
  refine List.Nodup.map_on ?_ (loopTriples_nodup ni nj nk)
  intro p hp q hq he
  obtain ⟨hp1, hp2, hp3⟩ := mem_loopTriples hp
  obtain ⟨hq1, hq2, hq3⟩ := mem_loopTriples hq
  obtain ⟨e1, e2, e3⟩ := storIdx_inj hp1 hp2 hq1 hq2 he
  exact Prod.ext e1 (Prod.ext e2 e3)

theorem readWrites_mem (f : List Nat) (ni nj nk i j k : Nat)
    (hi : i < ni) (hj : j < nj) (hk : k < nk) :
    (storIdx ni nj i j k, decHead (f.drop (36 + 4 * (k + nk * (j + nj * i))))) ∈
      readWrites f ni nj nk := by
  have h1 : (loopTriples ni nj nk).enum[k + nk * (j + nj * i)]? =
      some (k + nk * (j + nj * i), (i, j, k)) := by
    rw [List.getElem?_enum, loopTriples_getElem ni nj nk i j k hi hj hk]
    rfl
  have h2 : (readWrites f ni nj nk)[k + nk * (j + nj * i)]? =
      some (storIdx ni nj i j k, decHead (f.drop (36 + 4 * (k + nk * (j + nj * i))))) := by
    rw [readWrites, List.getElem?_map, h1]
    rfl
  exact List.getElem?_mem h2

/-- The cell values of the grid built by the reader: the cell `(i,j,k)`
holds the little-endian float32 read from byte position
`36 + 4*(k + nk*(j + nj*i))` of the file. -/
theorem readGrid_at (f : List Nat) (ni nj nk i j k : Nat)
    (hi : i < ni) (hj : j < nj) (hk : k < nk) :
    (Array3f.at ⟨ni, nj, nk, applyWrites (List.replicate (ni * nj * nk) 0) (readWrites f ni nj nk)⟩ i j k) =
      decHead (f.drop (36 + 4 * (k + nk * (j + nj * i)))) := by
  rw [Array3f.at, List.getD_eq_getElem?_getD]
  rw [applyWrites_getElem_of_mem _ _ _ _ (readWrites_keys_nodup f ni nj nk)
    (readWrites_mem f ni nj nk i j k hi hj hk)
    (by rw [List.length_replicate]; exact storIdx_lt hi hj hk)]
  rfl

/-! ## Claims C2 and C5: container round-trip and position mapping -/

theorem flatMap_le32_length (vals : List Nat) : (vals.flatMap le32).length = 4 * vals.length := by
  induction vals with
  | nil => rfl
  | cons v tl ih =>
    rw [List.flatMap_cons, List.length_append, ih, le32_length, List.length_cons]
    ring

theorem flatMap_le32_decHead (vals : List Nat) (t x : Nat) (hx : vals[t]? = some x) :
    decHead ((vals.flatMap le32).drop (4 * t)) = x % 2 ^ 32 := by
  induction vals generalizing t with
  | nil => simp at hx
  | cons v tl ih =>
    cases t with
    | zero =>
      have hvx : v = x := by simpa using hx
      rw [List.flatMap_cons, Nat.mul_zero, List.drop_zero, decHead_le32_append, hvx]
    | succ t =>
      simp only [List.getElem?_cons_succ] at hx
      rw [List.flatMap_cons, show 4 * (t + 1) = 4 + 4 * t by ring, ← List.drop_drop,
        drop4_le32_append]
      exact ih t hx

theorem Array3f_at_lt (g : Array3f) (hv : ∀ v ∈ g.a, v < 2 ^ 32) (i j k : Nat) :
    g.at i j k < 2 ^ 32 := by
  rw [Array3f.at, List.getD_eq_getElem?_getD]
  cases h : g.a[storIdx g.ni g.nj i j k]? with
  | none => norm_num
  | some v => simpa using hv v (List.getElem?_mem h)

/-- C5: for every SDF container file accepted by `read_sdf_binary` (header
dimensions positive and complete data), the reader's sequential
`i`-outer/`j`-middle/`k`-inner assignment loop stores into `phi(i,j,k)`
exactly the little-endian float32 located at byte position
`36 + 4*(k + nk*(j + nj*i))` of the file. -/
theorem read_sdf_binary_position (f : List Nat) (g : Array3f) (mn mx : Nat × Nat × Nat)
    (h : read_sdf_binary f = some (g, mn, mx)) (i j k : Nat)
    (hi : i < g.ni) (hj : j < g.nj) (hk : k < g.nk) :
    g.at i j k = dec4 f (36 + 4 * (k + g.nk * (j + g.nj * i))) := by
  rw [read_sdf_binary] at h
  split_ifs at h
  all_goals try exact Option.noConfusion h
  simp only [Option.some.injEq, Prod.mk.injEq] at h
  obtain ⟨hg, -, -⟩ := h
  subst hg
  exact readGrid_at f _ _ _ i j k hi hj hk

/-- Witness for C5 at a concrete file. -/
theorem read_sdf_binary_position_witness :
    Array3f.at ⟨1, 1, 2, [7, 9]⟩ 0 0 1 = dec4 c5file (36 + 4 * (1 + 2 * (0 + 1 * 0))) :=
  read_sdf_binary_position c5file ⟨1, 1, 2, [7, 9]⟩ (0, 0, 0) (0, 0, 0) (by decide)
    0 0 1 (by decide) (by decide) (by decide)

/-- C2: writing a grid with positive (int32) dimensions to the binary
container and reading the file back succeeds and reconstructs the
dimensions exactly, the bounds minimum bit-for-bit, the bounds maximum as
the written bounds maximum, and every cell bit-for-bit. -/
theorem sdf_write_read_roundtrip (g : Array3f) (mn0 mn1 mn2 dx : Nat)
    (h1 : 0 < g.ni) (h2 : 0 < g.nj) (h3 : 0 < g.nk)
    (h4 : g.ni < 2 ^ 31) (h5 : g.nj < 2 ^ 31) (h6 : g.nk < 2 ^ 31)
    (hlen : g.a.length = g.ni * g.nj * g.nk)
    (hv : ∀ v ∈ g.a, v < 2 ^ 32)
    (hm0 : mn0 < 2 ^ 32) (hm1 : mn1 < 2 ^ 32) (hm2 : mn2 < 2 ^ 32) :
    ∃ g', read_sdf_binary (write_sdf_binary g mn0 mn1 mn2 dx) =
        some (g', (mn0, mn1, mn2),
          (boundsMaxComp mn0 g.ni dx, boundsMaxComp mn1 g.nj dx, boundsMaxComp mn2 g.nk dx)) ∧
      g'.ni = g.ni ∧ g'.nj = g.nj ∧ g'.nk = g.nk ∧
      ∀ i j k, i < g.ni → j < g.nj → k < g.nk → g'.at i j k = g.at i j k := by
  have hflen : (write_sdf_binary g mn0 mn1 mn2 dx).length = 36 + 4 * (g.ni * g.nj * g.nk) := by
    rw [write_sdf_binary, flatMap_le32_length, List.length_append, sdfCellWords,
      List.length_map, loopTriples_length,
      show (sdfHeaderWords g mn0 mn1 mn2 dx).length = 9 from rfl]
    ring
  have hni32 : g.ni < 2 ^ 32 := by omega
  have hnj32 : g.nj < 2 ^ 32 := by omega
  have hnk32 : g.nk < 2 ^ 32 := by omega
  have d0 : dec4 (write_sdf_binary g mn0 mn1 mn2 dx) 0 = g.ni := by
    have h := flatMap_le32_decHead (sdfHeaderWords g mn0 mn1 mn2 dx ++ sdfCellWords g) 0 g.ni rfl
    rwa [Nat.mod_eq_of_lt hni32] at h
  have d4 : dec4 (write_sdf_binary g mn0 mn1 mn2 dx) 4 = g.nj := by
    have h := flatMap_le32_decHead (sdfHeaderWords g mn0 mn1 mn2 dx ++ sdfCellWords g) 1 g.nj rfl
    rwa [Nat.mod_eq_of_lt hnj32] at h
  have d8 : dec4 (write_sdf_binary g mn0 mn1 mn2 dx) 8 = g.nk := by
    have h := flatMap_le32_decHead (sdfHeaderWords g mn0 mn1 mn2 dx ++ sdfCellWords g) 2 g.nk rfl
    rwa [Nat.mod_eq_of_lt hnk32] at h
  have d12 : dec4 (write_sdf_binary g mn0 mn1 mn2 dx) 12 = mn0 := by
    have h := flatMap_le32_decHead (sdfHeaderWords g mn0 mn1 mn2 dx ++ sdfCellWords g) 3 mn0 rfl
    rwa [Nat.mod_eq_of_lt hm0] at h
  have d16 : dec4 (write_sdf_binary g mn0 mn1 mn2 dx) 16 = mn1 := by
    have h := flatMap_le32_decHead (sdfHeaderWords g mn0 mn1 mn2 dx ++ sdfCellWords g) 4 mn1 rfl
    rwa [Nat.mod_eq_of_lt hm1] at h
  have d20 : dec4 (write_sdf_binary g mn0 mn1 mn2 dx) 20 = mn2 := by
    have h := flatMap_le32_decHead (sdfHeaderWords g mn0 mn1 mn2 dx ++ sdfCellWords g) 5 mn2 rfl
    rwa [Nat.mod_eq_of_lt hm2] at h
  have d24 : dec4 (write_sdf_binary g mn0 mn1 mn2 dx) 24 = boundsMaxComp mn0 g.ni dx := by
    have h := flatMap_le32_decHead (sdfHeaderWords g mn0 mn1 mn2 dx ++ sdfCellWords g) 6
      (boundsMaxComp mn0 g.ni dx) rfl
    rwa [Nat.mod_eq_of_lt (show boundsMaxComp mn0 g.ni dx < 2 ^ 32 from f32add_lt _ _)] at h
  have d28 : dec4 (write_sdf_binary g mn0 mn1 mn2 dx) 28 = boundsMaxComp mn1 g.nj dx := by
    have h := flatMap_le32_decHead (sdfHeaderWords g mn0 mn1 mn2 dx ++ sdfCellWords g) 7
      (boundsMaxComp mn1 g.nj dx) rfl
    rwa [Nat.mod_eq_of_lt (show boundsMaxComp mn1 g.nj dx < 2 ^ 32 from f32add_lt _ _)] at h
  have d32 : dec4 (write_sdf_binary g mn0 mn1 mn2 dx) 32 = boundsMaxComp mn2 g.nk dx := by
    have hx8 : (sdfHeaderWords g mn0 mn1 mn2 dx ++ sdfCellWords g)[8]? =
        some (boundsMaxComp mn2 g.nk dx) := by
      rw [List.getElem?_append,
        if_pos (by rw [show (sdfHeaderWords g mn0 mn1 mn2 dx).length = 9 from rfl]; omega)]
      rfl
    have h := flatMap_le32_decHead (sdfHeaderWords g mn0 mn1 mn2 dx ++ sdfCellWords g) 8
      (boundsMaxComp mn2 g.nk dx) hx8
    rwa [Nat.mod_eq_of_lt (show boundsMaxComp mn2 g.nk dx < 2 ^ 32 from f32add_lt _ _)] at h
  have hi32ni : i32 g.ni = (g.ni : Int) := by rw [i32, if_pos (by exact_mod_cast h4)]
  have hi32nj : i32 g.nj = (g.nj : Int) := by rw [i32, if_pos (by exact_mod_cast h5)]
  have hi32nk : i32 g.nk = (g.nk : Int) := by rw [i32, if_pos (by exact_mod_cast h6)]
  refine ⟨⟨g.ni, g.nj, g.nk,
    applyWrites (List.replicate (g.ni * g.nj * g.nk) 0)
      (readWrites (write_sdf_binary g mn0 mn1 mn2 dx) g.ni g.nj g.nk)⟩, ?_, rfl, rfl, rfl, ?_⟩
  · rw [read_sdf_binary, d0, d4, d8, d12, d16, d20, d24, d28, d32, hi32ni, hi32nj, hi32nk]
    rw [if_neg (by rw [hflen]; omega)]
    rw [if_neg (by push_neg; omega)]
    simp only [Int.toNat_natCast]
    rw [if_neg (by rw [hflen]; omega)]
  · intro i j k hi hj hk
    have hbase := readGrid_at (write_sdf_binary g mn0 mn1 mn2 dx) g.ni g.nj g.nk i j k hi hj hk
    have hx : (sdfHeaderWords g mn0 mn1 mn2 dx ++ sdfCellWords g)[9 + (k + g.nk * (j + g.nj * i))]? =
        some (g.at i j k) := by
      have hhl : (sdfHeaderWords g mn0 mn1 mn2 dx).length = 9 := rfl
      rw [List.getElem?_append, if_neg (by rw [hhl]; omega), hhl,
        show 9 + (k + g.nk * (j + g.nj * i)) - 9 = k + g.nk * (j + g.nj * i) by omega,
        sdfCellWords, List.getElem?_map, loopTriples_getElem g.ni g.nj g.nk i j k hi hj hk]
      rfl
    have hval := flatMap_le32_decHead (sdfHeaderWords g mn0 mn1 mn2 dx ++ sdfCellWords g)
      (9 + (k + g.nk * (j + g.nj * i))) (g.at i j k) hx
    calc Array3f.at ⟨g.ni, g.nj, g.nk,
          applyWrites (List.replicate (g.ni * g.nj * g.nk) 0)
            (readWrites (write_sdf_binary g mn0 mn1 mn2 dx) g.ni g.nj g.nk)⟩ i j k
        = decHead ((write_sdf_binary g mn0 mn1 mn2 dx).drop
            (36 + 4 * (k + g.nk * (j + g.nj * i)))) := hbase
      _ = decHead ((write_sdf_binary g mn0 mn1 mn2 dx).drop
            (4 * (9 + (k + g.nk * (j + g.nj * i))))) := by ring_nf
      _ = g.at i j k % 2 ^ 32 := hval
      _ = g.at i j k := Nat.mod_eq_of_lt (Array3f_at_lt g hv i j k)

/-- Witness for C2 at a concrete grid. -/
theorem sdf_write_read_roundtrip_witness :
    ∃ g', read_sdf_binary (write_sdf_binary c2grid 0 0 0 0) =
        some (g', (0, 0, 0),
          (boundsMaxComp 0 c2grid.ni 0, boundsMaxComp 0 c2grid.nj 0, boundsMaxComp 0 c2grid.nk 0)) ∧
      g'.ni = c2grid.ni ∧ g'.nj = c2grid.nj ∧ g'.nk = c2grid.nk ∧
      ∀ i j k, i < c2grid.ni → j < c2grid.nj → k < c2grid.nk → g'.at i j k = c2grid.at i j k :=
  sdf_write_read_roundtrip c2grid 0 0 0 0 (by decide) (by decide) (by decide)
    (by decide) (by decide) (by decide) (by decide) (by decide)
    (by decide) (by decide) (by decide)

/-- Counterexample for C1: called on an empty mesh with non-positive grid
dimensions and `dx = 0`, the kernel entry raises no validation error at
the call boundary; it dispatches straight to the CPU backend.  The claim
asserts an `InvalidGridDimensions` / `EmptyMesh` error is raised at kernel
entry before any work begins. -/
theorem make_level_set3_no_validation_counterexample :
    make_level_set3 false false HardwareBackend.CPU c1BadArgs = Except.ok (KernelRun.cpu c1BadArgs) := by
  rfl

/-- C1 (amended): the C++ kernel entry performs no input validation at
all — with the CPU backend every argument record is dispatched unchanged —
while the empty-mesh, grid-dimension and cell-size checks of the spec
exist only in the Python binding `generate_sdf`, which raises them in that
order before invoking the kernel; no triangle-index check exists anywhere. -/
theorem make_level_set3_validation_amended (haveCuda deviceOk : Bool) (nVerts nTris : Nat)
    (tri : List (Nat × Nat × Nat)) (x : List (Nat × Nat × Nat))
    (origin : Nat × Nat × Nat) (dx : Nat) (nx ny nz : Int) (exact_band : Int)
    (backendStr : List Nat) (num_threads : Int) (a : MLSArgs) :
    make_level_set3 haveCuda deviceOk HardwareBackend.CPU a = Except.ok (KernelRun.cpu a) ∧
    (generate_sdf haveCuda deviceOk nVerts nTris tri x origin dx nx ny nz exact_band backendStr
        num_threads = Except.error GenError.emptyMeshArg ↔ nVerts = 0 ∨ nTris = 0) ∧
    (generate_sdf haveCuda deviceOk nVerts nTris tri x origin dx nx ny nz exact_band backendStr
        num_threads = Except.error GenError.invalidDims ↔
      ¬(nVerts = 0 ∨ nTris = 0) ∧ (nx ≤ 0 ∨ ny ≤ 0 ∨ nz ≤ 0)) ∧
    (generate_sdf haveCuda deviceOk nVerts nTris tri x origin dx nx ny nz exact_band backendStr
        num_threads = Except.error GenError.invalidDx ↔
      ¬(nVerts = 0 ∨ nTris = 0) ∧ ¬(nx ≤ 0 ∨ ny ≤ 0 ∨ nz ≤ 0) ∧ f32le dx 0 = true) := by
  refine ⟨rfl, ?_, ?_, ?_⟩ <;>
    · rw [generate_sdf]
      split_ifs with hc1 hc2 hc3 <;>
        simp_all <;>
        rcases hpb : parseBackendStr backendStr with _ | b <;>
        simp_all <;>
        rcases hk : make_level_set3 haveCuda deviceOk b
          ⟨tri, x, origin, dx, nx, ny, nz, exact_band, num_threads⟩ with e | r <;>
        simp_all

/-- Witness for the amended C1 at concrete inputs. -/
theorem make_level_set3_validation_amended_witness :
    make_level_set3 false false HardwareBackend.CPU c1BadArgs = Except.ok (KernelRun.cpu c1BadArgs) ∧
    (generate_sdf false false 0 0 [] [] (0, 0, 0) 0 1 1 1 1 [97, 117, 116, 111] 0 =
        Except.error GenError.emptyMeshArg ↔ (0 : Nat) = 0 ∨ (0 : Nat) = 0) ∧
    (generate_sdf false false 0 0 [] [] (0, 0, 0) 0 1 1 1 1 [97, 117, 116, 111] 0 =
        Except.error GenError.invalidDims ↔
      ¬((0 : Nat) = 0 ∨ (0 : Nat) = 0) ∧ ((1 : Int) ≤ 0 ∨ (1 : Int) ≤ 0 ∨ (1 : Int) ≤ 0)) ∧
    (generate_sdf false false 0 0 [] [] (0, 0, 0) 0 1 1 1 1 [97, 117, 116, 111] 0 =
        Except.error GenError.invalidDx ↔
      ¬((0 : Nat) = 0 ∨ (0 : Nat) = 0) ∧ ¬((1 : Int) ≤ 0 ∨ (1 : Int) ≤ 0 ∨ (1 : Int) ≤ 0) ∧
        f32le 0 0 = true) :=
  make_level_set3_validation_amended false false 0 0 [] [] (0, 0, 0) 0 1 1 1 1
    [97, 117, 116, 111] 0 c1BadArgs

/-- C3: with backend `Auto`, the call dispatches to the GPU implementation
iff the build includes GPU support and a capable CUDA device is present at
call time; otherwise it dispatches to the CPU implementation, and the
kernel run is that of the chosen backend on the given arguments. -/
theorem make_level_set3_auto_dispatch (haveCuda deviceOk : Bool) (a : MLSArgs) :
    (make_level_set3 haveCuda deviceOk HardwareBackend.Auto a = Except.ok (KernelRun.gpu a) ↔
      haveCuda = true ∧ deviceOk = true) ∧
    (¬(haveCuda = true ∧ deviceOk = true) →
      make_level_set3 haveCuda deviceOk HardwareBackend.Auto a = Except.ok (KernelRun.cpu a)) := by
  rcases haveCuda with _ | _ <;> rcases deviceOk with _ | _ <;>
    simp [make_level_set3, resolveBackend, is_gpu_available]

/-- Witness for C3 at concrete flags. -/
theorem make_level_set3_auto_dispatch_witness :
    (make_level_set3 false true HardwareBackend.Auto c1BadArgs = Except.ok (KernelRun.gpu c1BadArgs) ↔
      false = true ∧ true = true) ∧
    (¬(false = true ∧ true = true) →
      make_level_set3 false true HardwareBackend.Auto c1BadArgs = Except.ok (KernelRun.cpu c1BadArgs)) :=
  make_level_set3_auto_dispatch false true c1BadArgs

/-- C4: a call with backend `GPU` raises the kind-`BackendUnavailable`
error iff GPU support is absent from the build (`HAVE_CUDA` not defined),
and that error is raised only for `GPU`-backend calls without GPU
support. -/
theorem make_level_set3_gpu_unavailable (haveCuda deviceOk : Bool) (a : MLSArgs) :
    (make_level_set3 haveCuda deviceOk HardwareBackend.GPU a =
        Except.error EntryError.backendUnavailable ↔ haveCuda = false) ∧
    (∀ b : HardwareBackend, make_level_set3 haveCuda deviceOk b a =
        Except.error EntryError.backendUnavailable → b = HardwareBackend.GPU ∧ haveCuda = false) := by
  constructor
  · rcases haveCuda with _ | _ <;> simp [make_level_set3, resolveBackend]
  · intro b hb
    rcases b with _ | _ | _ <;> rcases haveCuda with _ | _ <;> rcases deviceOk with _ | _ <;>
      simp_all [make_level_set3, resolveBackend, is_gpu_available]

/-- Witness for C4 at concrete flags and backend. -/
theorem make_level_set3_gpu_unavailable_witness :
    (make_level_set3 false false HardwareBackend.GPU c1BadArgs =
        Except.error EntryError.backendUnavailable ↔ false = false) ∧
    (∀ b : HardwareBackend, make_level_set3 false false b c1BadArgs =
        Except.error EntryError.backendUnavailable → b = HardwareBackend.GPU ∧ false = false) :=
  make_level_set3_gpu_unavailable false false c1BadArgs

/-! ## Claim C6: STL format auto-detection -/

/-- Counterexample for C6: the one-byte file `A` does not start with
`solid`, yet it is not treated as binary — detection returns `Unknown` and
`load_stl` fails without invoking either loader. -/
theorem detect_stl_tiny_counterexample :
    detect_stl_format [65] = STLFormat.Unknown ∧ load_stl [65] = none ∧
      STLFormat.Unknown ≠ STLFormat.Binary := by
  decide

/-- C6 (amended): for a file of at least five bytes, if its first bytes
start case-insensitively with `solid` then it is treated as binary exactly
when the file size equals `80 + 4 + 50*n` with `n` the little-endian
uint32 at offset 80 (missing bytes as zero, immaterial since such sizes
are below 84), and as ASCII on any other size; at least five bytes not
starting with `solid` case-insensitively are treated as binary; fewer
than five readable bytes are an unknown format and `load_stl` fails. -/
theorem detect_stl_amended (f : List Nat) :
    (f.length < 5 → detect_stl_format f = STLFormat.Unknown ∧ load_stl f = none) ∧
    (5 ≤ f.length →
      (solidBytes.isPrefixOf ((f.take 80).map toLowerByte) = true →
        (detect_stl_format f = STLFormat.Binary ↔ f.length = 84 + 50 * dec4 f 80) ∧
        (f.length ≠ 84 + 50 * dec4 f 80 → detect_stl_format f = STLFormat.ASCII)) ∧
      (solidBytes.isPrefixOf ((f.take 80).map toLowerByte) = false →
        detect_stl_format f = STLFormat.Binary)) := by
  constructor
  · intro h
    rw [detect_stl_format, if_pos h, load_stl, detect_stl_format, if_pos h]
    exact ⟨rfl, rfl⟩
  · intro h5
    constructor
    · intro hsolid
      rw [detect_stl_format, if_neg (by omega), if_pos hsolid]
      by_cases h84 : f.length < 84
      · rw [if_pos h84]
        exact ⟨by constructor
                  · intro hc; exact absurd hc (by simp)
                  · intro hc; omega,
              fun _ => rfl⟩
      · rw [if_neg h84]
        by_cases heq : f.length = 84 + 50 * dec4 f 80
        · rw [if_pos heq]
          exact ⟨by simp [heq], fun hne => absurd heq hne⟩
        · rw [if_neg heq]
          exact ⟨by constructor
                    · intro hc; exact absurd hc (by simp)
                    · intro hc; exact absurd hc heq,
                fun _ => rfl⟩
    · intro hns
      rw [detect_stl_format, if_neg (by omega), if_neg (by rw [hns]; simp)]

/-- Witness for the amended C6 at a concrete binary file: 84 zero bytes
(valid binary STL with zero triangles). -/
theorem detect_stl_amended_witness :
    ((List.replicate 84 0 : List Nat).length < 5 →
      detect_stl_format (List.replicate 84 0) = STLFormat.Unknown ∧
        load_stl (List.replicate 84 0) = none) ∧
    (5 ≤ (List.replicate 84 0 : List Nat).length →
      (solidBytes.isPrefixOf (((List.replicate 84 0 : List Nat).take 80).map toLowerByte) = true →
        (detect_stl_format (List.replicate 84 0) = STLFormat.Binary ↔
          (List.replicate 84 0 : List Nat).length = 84 + 50 * dec4 (List.replicate 84 0) 80) ∧
        ((List.replicate 84 0 : List Nat).length ≠ 84 + 50 * dec4 (List.replicate 84 0) 80 →
          detect_stl_format (List.replicate 84 0) = STLFormat.ASCII)) ∧
      (solidBytes.isPrefixOf (((List.replicate 84 0 : List Nat).take 80).map toLowerByte) = false →
        detect_stl_format (List.replicate 84 0) = STLFormat.Binary)) :=
  detect_stl_amended (List.replicate 84 0)

/-- C10: the OBJ loader and the ASCII STL loader fail (`return false`)
whenever the parse completes with zero vertices or zero faces, while the
binary STL loader performs no such check: on the well-formed zero-triangle
binary file it succeeds with empty vertex and face lists (and `load_stl`
routes that file to the binary loader). -/
theorem loaders_empty_mesh_checks :
    (∀ lines st, asciiRun lines = some st → (st.verts.isEmpty ∨ st.faces.isEmpty) →
      load_ascii_stl lines = none) ∧
    (∀ lines st, objRun lines = some st → (st.verts.isEmpty ∨ st.faces.isEmpty) →
      load_obj lines = LoadResult.failure) ∧
    load_binary_stl zeroTriStl = some ⟨[], [], fltMaxV, fltLowV⟩ ∧
    load_stl zeroTriStl = some ⟨[], [], fltMaxV, fltLowV⟩ := by
  refine ⟨?_, ?_, by decide, by decide⟩
  · intro lines st h hempt
    simp only [load_ascii_stl, h]
    rcases hempt with he | he <;> split_ifs <;> simp_all
  · intro lines st h hempt
    simp only [load_obj, h]
    rcases hempt with he | he <;> split_ifs <;> simp_all

/-- Witness for C10 on the empty line list (an OBJ file with no content
parses to zero vertices and faces and is rejected; same for ASCII STL). -/
theorem loaders_empty_mesh_checks_witness :
    load_ascii_stl [] = none ∧ load_obj [] = LoadResult.failure :=
  ⟨(loaders_empty_mesh_checks.1 [] asciiInit rfl (by decide)),
   (loaders_empty_mesh_checks.2.1 [] objInit rfl (by decide))⟩

/-! ## Claim C7: OBJ face fan triangulation -/

theorem mapOption_length {α β : Type} (f : α → Option β) (l : List α) (r : List β)
    (h : mapOption f l = some r) : r.length = l.length := by
  induction l generalizing r with
  | nil => simp only [mapOption, Option.some.injEq] at h; subst h; rfl
  | cons a tl ih =>
    rw [mapOption] at h
    cases hf : f a with
    | none => rw [hf] at h; simp at h
    | some y =>
      rw [hf] at h
      cases hr : mapOption f tl with
      | none => rw [hr] at h; simp at h
      | some ys =>
        rw [hr] at h
        simp only [Option.some.injEq] at h
        subst h
        simp [ih ys hr]

theorem mapOption_mem {α β : Type} (f : α → Option β) (l : List α) (r : List β)
    (h : mapOption f l = some r) (y : β) (hy : y ∈ r) : ∃ x ∈ l, f x = some y := by
  induction l generalizing r with
  | nil =>
    simp only [mapOption, Option.some.injEq] at h
    subst h
    simp at hy
  | cons a tl ih =>
    rw [mapOption] at h
    cases hf : f a with
    | none => rw [hf] at h; simp at h
    | some z =>
      rw [hf] at h
      cases hr : mapOption f tl with
      | none => rw [hr] at h; simp at h
      | some ys =>
        rw [hr] at h
        simp only [Option.some.injEq] at h
        subst h
        rcases List.mem_cons.mp hy with he | hm
        · exact ⟨a, by simp, by rw [hf, he]⟩
        · rcases ih ys hr hm with ⟨x, hx, hfx⟩
          exact ⟨x, by simp [hx], hfx⟩

theorem intRangeCheck_bounds (v w : Int) (h : intRangeCheck v = some w) :
    -(2 ^ 31) ≤ w ∧ w ≤ 2 ^ 31 - 1 := by
  rw [intRangeCheck] at h
  split_ifs at h with hc
  simp only [Option.some.injEq] at h
  subst h
  push_neg at hc
  omega

theorem stoiParse_range (tok : List Nat) (w : Int) (h : stoiParse tok = some w) :
    -(2 ^ 31) ≤ w ∧ w ≤ 2 ^ 31 - 1 := by
  rw [stoiParse] at h
  split_ifs at h <;>
    first
      | exact intRangeCheck_bounds _ _ h
      | simp at h

theorem u32cast_toNat (z : Int) (h0 : 0 ≤ z) (hlt : z < 2 ^ 32) : u32cast z = z.toNat := by
  rw [u32cast, Int.emod_eq_of_lt h0 hlt]

/-- C7: an `f ` line with `m ≥ 3` vertex tokens, each parsing (leading
integer before the first `/`) to a 1-based index, contributes exactly
`m-2` fan triangles: for `t ∈ [0, m-2)` the triangle
`(v[0]-1, v[t+1]-1, v[t+2]-1)` in 0-based indices, in that order. -/
theorem obj_face_fan (toks : List (List Nat)) (vs : List Int)
    (hp : mapOption objFaceIndex toks = some vs) (h3 : 3 ≤ toks.length)
    (hpos : ∀ v ∈ vs, 1 ≤ v) :
    objFaceTriangles toks =
      some ((List.range (toks.length - 2)).map fun t =>
        ((vs.getD 0 0 - 1).toNat, (vs.getD (t + 1) 0 - 1).toNat, (vs.getD (t + 2) 0 - 1).toNat)) := by
  have hlen : vs.length = toks.length := mapOption_length _ _ _ hp
  have hrange : ∀ v ∈ vs, 1 ≤ v ∧ v ≤ 2 ^ 31 - 1 := by
    intro v hv
    rcases mapOption_mem _ _ _ hp v hv with ⟨tok, -, htok⟩
    exact ⟨hpos v hv, (stoiParse_range _ _ htok).2⟩
  have hgetD : ∀ t, t < vs.length → u32cast (vs.getD t 0 - 1) = (vs.getD t 0 - 1).toNat := by
    intro t ht
    have hmem : vs.getD t 0 ∈ vs := by
      rw [List.getD_eq_getElem?_getD, List.getElem?_eq_getElem ht]
      exact List.getElem_mem _
    rcases hrange _ hmem with ⟨hge, hle⟩
    exact u32cast_toNat _ (by omega) (by omega)
  rw [objFaceTriangles, hp]
  simp only [Option.some.injEq]
  rw [if_neg (by omega)]
  rw [fanFaces, hlen]
  apply List.map_congr_left
  intro t ht
  rw [List.mem_range] at ht
  rw [hgetD 0 (by omega), hgetD (t + 1) (by omega), hgetD (t + 2) (by omega)]

/-- Witness for C7 on the tokens `1/5`, `2`, `3//7`. -/
theorem obj_face_fan_witness :
    objFaceTriangles [[49, 47, 53], [50], [51, 47, 47, 55]] =
      some ((List.range (([[49, 47, 53], [50], [51, 47, 47, 55]] :
          List (List Nat)).length - 2)).map fun t =>
        ((([1, 2, 3] : List Int).getD 0 0 - 1).toNat,
         (([1, 2, 3] : List Int).getD (t + 1) 0 - 1).toNat,
         (([1, 2, 3] : List Int).getD (t + 2) 0 - 1).toNat)) :=
  obj_face_fan [[49, 47, 53], [50], [51, 47, 47, 55]] [1, 2, 3] (by decide) (by decide) (by decide)

/-! ## Claims C8 and C9: CLI mode disambiguation and padding clamp -/

theorem cliMain_precise (args : List (List Nat)) (mm : MeshBB) (hstl : cliIsStl args)
    (h3 : 3 ≤ args.length) :
    cliMain args (some mm) =
      if cliIsMode2a args then cliMode2a args mm else cliMode2b args mm := by
  rw [cliMain]
  rw [if_neg (by
    rintro (⟨hn, -⟩ | ⟨-, hlt⟩)
    · exact hn ⟨hstl, h3⟩
    · omega)]
  rw [if_pos (And.intro hstl h3)]

/-- C8: in STL mode with exactly five arguments (program name, STL file
and three numeric values), the CLI interprets them as `Nx`, padding and
threads (mode 2a) precisely when the value in the `Ny` position parses
below 20, and as explicit dimensions `Nx Ny Nz` (mode 2b) otherwise. -/
theorem cli_argc5_heuristic (a0 f x y z : List Nat) (mm : MeshBB)
    (hl : 4 ≤ f.length) (hstl : stlExtBytes.isSuffixOf f = true) :
    (atoiB y < 20 → 0 < atoiB x →
      ∃ cfg, cliMain [a0, f, x, y, z] (some mm) = CliOutcome.run cfg ∧
        cfg.mode = CliMode.mode2a ∧ cfg.nx = atoiB x ∧
        cfg.padding = (if atoiB y < 1 then 1 else atoiB y) ∧ cfg.threads = atoiB z) ∧
    (¬(atoiB y < 20) → 0 < atoiB x → 0 < atoiB y → 0 < atoiB z →
      ∃ cfg, cliMain [a0, f, x, y, z] (some mm) = CliOutcome.run cfg ∧
        cfg.mode = CliMode.mode2b ∧ cfg.nx = atoiB x ∧ cfg.ny = atoiB y ∧ cfg.nz = atoiB z) := by
  have hstl5 : cliIsStl [a0, f, x, y, z] := ⟨hl, hstl⟩
  constructor
  · intro h20 hx
    have hyes : cliIsMode2a [a0, f, x, y, z] := Or.inr (Or.inr ⟨rfl, h20⟩)
    have hnz : ¬(atoiB ([a0, f, x, y, z].getD 2 []) ≤ 0) := by
      simp only [List.getD_cons_succ, List.getD_cons_zero]
      omega
    rw [cliMain_precise _ _ hstl5 (by simp), if_pos hyes, cliMode2a, if_neg hnz]
    exact ⟨_, rfl, rfl, rfl, rfl, rfl⟩
  · intro h20 hx hy hz
    have hno : ¬cliIsMode2a [a0, f, x, y, z] := by
      rintro (h | h | ⟨-, h⟩)
      · simp at h
      · simp at h
      · simp only [List.getD_cons_succ, List.getD_cons_zero] at h
        omega
    have hnz : ¬(atoiB ([a0, f, x, y, z].getD 2 []) ≤ 0 ∨
        atoiB ([a0, f, x, y, z].getD 3 []) ≤ 0 ∨ atoiB ([a0, f, x, y, z].getD 4 []) ≤ 0) := by
      simp only [List.getD_cons_succ, List.getD_cons_zero]
      omega
    rw [cliMain_precise _ _ hstl5 (by simp), if_neg hno, cliMode2b, if_neg hnz]
    exact ⟨_, rfl, rfl, rfl, rfl, rfl⟩

/-- Witness for C8 at concrete arguments (`file.stl 50 1 4` and
`file.stl 50 25 40`, bounds `(0,0,0)`–`(1,1,1)`). -/
theorem cli_argc5_heuristic_witness :
    (atoiB [49] < 20 → 0 < atoiB [53, 48] →
      ∃ cfg, cliMain [[112], [97, 46, 115, 116, 108], [53, 48], [49], [52]]
          (some (((0, 0, 0), (1065353216, 1065353216, 1065353216)) : MeshBB)) =
          CliOutcome.run cfg ∧
        cfg.mode = CliMode.mode2a ∧ cfg.nx = atoiB [53, 48] ∧
        cfg.padding = (if atoiB [49] < 1 then 1 else atoiB [49]) ∧ cfg.threads = atoiB [52]) ∧
    (¬(atoiB [49] < 20) → 0 < atoiB [53, 48] → 0 < atoiB [49] → 0 < atoiB [52] →
      ∃ cfg, cliMain [[112], [97, 46, 115, 116, 108], [53, 48], [49], [52]]
          (some (((0, 0, 0), (1065353216, 1065353216, 1065353216)) : MeshBB)) =
          CliOutcome.run cfg ∧
        cfg.mode = CliMode.mode2b ∧ cfg.nx = atoiB [53, 48] ∧ cfg.ny = atoiB [49] ∧
          cfg.nz = atoiB [52]) :=
  cli_argc5_heuristic [112] [97, 46, 115, 116, 108] [53, 48] [49] [52]
    (((0, 0, 0), (1065353216, 1065353216, 1065353216)) : MeshBB) (by decide) (by decide)

/-- C9: in every CLI mode, a parsed padding value below 1 is silently
replaced by 1 — the outcome is a run configuration with padding 1, not a
usage message or an error (given the other arguments are valid and the
mesh loads). -/
theorem cli_padding_clamp :
    (∀ a0 f d p rest mm, ¬cliIsStl ([a0, f, d, p] ++ rest) →
      5 ≤ f.length → objExtBytes.isSuffixOf f = true → atoiB p < 1 →
      ∃ cfg, cliMain ([a0, f, d, p] ++ rest) (some mm) = CliOutcome.run cfg ∧
        cfg.mode = CliMode.mode1 ∧ cfg.padding = 1) ∧
    (∀ a0 f x p rest mm, rest.length ≤ 1 → 4 ≤ f.length →
      stlExtBytes.isSuffixOf f = true → 0 < atoiB x → atoiB p < 1 →
      ∃ cfg, cliMain ([a0, f, x, p] ++ rest) (some mm) = CliOutcome.run cfg ∧
        cfg.mode = CliMode.mode2a ∧ cfg.padding = 1) ∧
    (∀ a0 f x y z p rest mm, rest.length ≤ 1 → 4 ≤ f.length →
      stlExtBytes.isSuffixOf f = true → 0 < atoiB x → 0 < atoiB y → 0 < atoiB z →
      atoiB p < 1 →
      ∃ cfg, cliMain ([a0, f, x, y, z, p] ++ rest) (some mm) = CliOutcome.run cfg ∧
        cfg.mode = CliMode.mode2b ∧ cfg.padding = 1) := by
  refine ⟨?_, ?_, ?_⟩
  · intro a0 f d p rest mm hnstl h5 hobj hp
    have hlen : ([a0, f, d, p] ++ rest).length = 4 + rest.length := by
      simp only [List.length_append, List.length_cons, List.length_nil]
      try omega
    have husage : ¬((¬(cliIsStl ([a0, f, d, p] ++ rest) ∧ 3 ≤ ([a0, f, d, p] ++ rest).length) ∧
        ([a0, f, d, p] ++ rest).length < 4) ∨
        ((cliIsStl ([a0, f, d, p] ++ rest) ∧ 3 ≤ ([a0, f, d, p] ++ rest).length) ∧
        ([a0, f, d, p] ++ rest).length < 3)) := by
      rintro (⟨-, h4⟩ | ⟨⟨hs, -⟩, -⟩)
      · omega
      · exact hnstl hs
    have hext : ¬((([a0, f, d, p] ++ rest).getD 1 []).length < 5 ∨
        ¬(objExtBytes.isSuffixOf (([a0, f, d, p] ++ rest).getD 1 []) = true)) := by
      rintro (hc | hc)
      · simp only [List.cons_append, List.getD_cons_succ, List.getD_cons_zero] at hc
        omega
      · simp only [List.cons_append, List.getD_cons_succ, List.getD_cons_zero] at hc
        exact hc hobj
    rw [cliMain, if_neg husage, if_neg (fun hc => hnstl hc.1), cliMode1, if_neg hext]
    refine ⟨_, rfl, rfl, ?_⟩
    simp only [List.cons_append, List.getD_cons_succ, List.getD_cons_zero]
    split_ifs <;> omega
  · intro a0 f x p rest mm hrest h4 hstl hx hp
    have hstl' : cliIsStl ([a0, f, x, p] ++ rest) := ⟨h4, hstl⟩
    rcases rest with - | ⟨t, rest2⟩
    · have hyes : cliIsMode2a ([a0, f, x, p] ++ []) := Or.inr (Or.inl rfl)
      have hnz : ¬(atoiB (([a0, f, x, p] ++ []).getD 2 []) ≤ 0) := by
        simp only [List.cons_append, List.nil_append, List.getD_cons_succ, List.getD_cons_zero]
        omega
      rw [cliMain_precise _ _ hstl' (by simp), if_pos hyes, cliMode2a, if_neg hnz]
      refine ⟨_, rfl, rfl, ?_⟩
      simp only [List.cons_append, List.nil_append, List.getD_cons_succ, List.getD_cons_zero,
        List.length_append, List.length_cons, List.length_nil]
      split_ifs <;> omega
    · rcases rest2 with - | ⟨u, rest3⟩
      · have hyes : cliIsMode2a ([a0, f, x, p] ++ [t]) := Or.inr (Or.inr ⟨by simp, by
          simp only [List.cons_append, List.nil_append, List.getD_cons_succ,
            List.getD_cons_zero]
          omega⟩)
        have hnz : ¬(atoiB (([a0, f, x, p] ++ [t]).getD 2 []) ≤ 0) := by
          simp only [List.cons_append, List.nil_append, List.getD_cons_succ, List.getD_cons_zero]
          omega
        rw [cliMain_precise _ _ hstl' (by simp), if_pos hyes, cliMode2a, if_neg hnz]
        refine ⟨_, rfl, rfl, ?_⟩
        simp only [List.cons_append, List.nil_append, List.getD_cons_succ, List.getD_cons_zero,
          List.length_append, List.length_cons, List.length_nil]
        split_ifs <;> omega
      · simp at hrest
  · intro a0 f x y z p rest mm hrest h4 hstl hx hy hz hp
    have hstl' : cliIsStl ([a0, f, x, y, z, p] ++ rest) := ⟨h4, hstl⟩
    rcases rest with - | ⟨t, rest2⟩
    · have hno : ¬cliIsMode2a ([a0, f, x, y, z, p] ++ []) := by
        rintro (h | h | ⟨h, -⟩) <;> simp at h
      have hnz : ¬(atoiB (([a0, f, x, y, z, p] ++ []).getD 2 []) ≤ 0 ∨
          atoiB (([a0, f, x, y, z, p] ++ []).getD 3 []) ≤ 0 ∨
          atoiB (([a0, f, x, y, z, p] ++ []).getD 4 []) ≤ 0) := by
        simp only [List.cons_append, List.nil_append, List.getD_cons_succ, List.getD_cons_zero]
        omega
      rw [cliMain_precise _ _ hstl' (by simp), if_neg hno, cliMode2b, if_neg hnz]
      refine ⟨_, rfl, rfl, ?_⟩
      simp only [List.cons_append, List.nil_append, List.getD_cons_succ, List.getD_cons_zero,
        List.length_append, List.length_cons, List.length_nil]
      split_ifs <;> omega
    · rcases rest2 with - | ⟨u, rest3⟩
      · have hno : ¬cliIsMode2a ([a0, f, x, y, z, p] ++ [t]) := by
          rintro (h | h | ⟨h, -⟩) <;> simp at h
        have hnz : ¬(atoiB (([a0, f, x, y, z, p] ++ [t]).getD 2 []) ≤ 0 ∨
            atoiB (([a0, f, x, y, z, p] ++ [t]).getD 3 []) ≤ 0 ∨
            atoiB (([a0, f, x, y, z, p] ++ [t]).getD 4 []) ≤ 0) := by
          simp only [List.cons_append, List.nil_append, List.getD_cons_succ, List.getD_cons_zero]
          omega
        rw [cliMain_precise _ _ hstl' (by simp), if_neg hno, cliMode2b, if_neg hnz]
        refine ⟨_, rfl, rfl, ?_⟩
        simp only [List.cons_append, List.nil_append, List.getD_cons_succ, List.getD_cons_zero,
          List.length_append, List.length_cons, List.length_nil]
        split_ifs <;> omega
      · simp at hrest

/-- Witness for C9: `file.obj 0.5 0`, `file.stl 50 0`, and
`file.stl 50 25 40 -3`, all with padding below 1. -/
theorem cli_padding_clamp_witness :
    (∃ cfg, cliMain [[112], [97, 98, 46, 111, 98, 106], [48, 46, 53], [48]]
        (some (((0, 0, 0), (1065353216, 1065353216, 1065353216)) : MeshBB)) =
        CliOutcome.run cfg ∧ cfg.mode = CliMode.mode1 ∧ cfg.padding = 1) ∧
    (∃ cfg, cliMain [[112], [97, 46, 115, 116, 108], [53, 48], [48]]
        (some (((0, 0, 0), (1065353216, 1065353216, 1065353216)) : MeshBB)) =
        CliOutcome.run cfg ∧ cfg.mode = CliMode.mode2a ∧ cfg.padding = 1) ∧
    (∃ cfg, cliMain [[112], [97, 46, 115, 116, 108], [53, 48], [50, 53], [52, 48], [45, 51]]
        (some (((0, 0, 0), (1065353216, 1065353216, 1065353216)) : MeshBB)) =
        CliOutcome.run cfg ∧ cfg.mode = CliMode.mode2b ∧ cfg.padding = 1) := by
  refine ⟨?_, ?_, ?_⟩
  · have h := cli_padding_clamp.1 [112] [97, 98, 46, 111, 98, 106] [48, 46, 53] [48] []
      (((0, 0, 0), (1065353216, 1065353216, 1065353216)) : MeshBB)
      (by decide) (by decide) (by decide) (by decide)
    simpa using h
  · have h := cli_padding_clamp.2.1 [112] [97, 46, 115, 116, 108] [53, 48] [48] []
      (((0, 0, 0), (1065353216, 1065353216, 1065353216)) : MeshBB)
      (by decide) (by decide) (by decide) (by decide) (by decide)
    simpa using h
  · have h := cli_padding_clamp.2.2 [112] [97, 46, 115, 116, 108] [53, 48] [50, 53] [52, 48]
      [45, 51] [] (((0, 0, 0), (1065353216, 1065353216, 1065353216)) : MeshBB)
      (by decide) (by decide) (by decide) (by decide) (by decide) (by decide) (by decide)
    simpa using h

end SDFGenFast
